import Mathlib

/-!
# Verification of the secret-house booking bot core

A shallow embedding of the repository's pricing engine
(`application/services/pricing_service.py`), booking slot-filling graph
(`infrastructure/llm/graphs/booking/booking_graph.py`) and natural-language
date extractor (`infrastructure/llm/extractors/date_extractor.py`), with
theorems settling the specification claims about them.

Modelling conventions:
* Python `Decimal` is modelled as `ℚ` (the source converts every monetary
  value with `Decimal(str(x))` and only adds, multiplies and divides them;
  division by zero, impossible on the shipped data, is Lean's total `x/0 = 0`
  instead of a raised `DivisionByZero`).
* Python dicts whose insertion order matters are modelled as association
  lists (`List (α × β)`); dict assignment overwrites in place or appends.
* Fallible Python code (raised exceptions) is modelled with `Option`/`Except`.
* `datetime.now(TZ)` is passed explicitly as a `now` parameter.
-/

namespace SecretHouse

/-! ## Pricing engine (`application/services/pricing_service.py`) -/

/-- `domain/booking/pricing.py::TariffRate`.  `multi_day_prices` is keyed by
day-count in the JSON config (digit strings there, natural numbers here),
in insertion order. -/
structure TariffRate where
  tariff : Int
  name : String
  duration_hours : Int
  price : ℚ
  sauna_price : ℚ
  secret_room_price : ℚ
  second_bedroom_price : ℚ
  extra_hour_price : ℚ
  extra_people_price : ℚ
  photoshoot_price : ℚ
  max_people : Int
  is_check_in_time_limit : Bool
  is_photoshoot : Bool
  is_transfer : Bool
  subscription_type : Int
  multi_day_prices : List (Nat × ℚ)
  deriving Repr, DecidableEq

/-- Lookup of `multi_day_prices[str(d)]` (dict keys are unique, so first
match is the dict entry). -/
def lookupDay (table : List (Nat × ℚ)) (d : Int) : Option ℚ :=
  (table.find? (fun p => (p.1 : Int) == d)).map (·.2)

/-- `max(int(k) for k in multi_day_prices.keys() if k.isdigit())`, folded with
Python `max` over the (all-numeric) day-count keys. -/
def maxDayKey (table : List (Nat × ℚ)) : Nat :=
  (table.map (·.1)).foldl Nat.max 0

/-- `PricingService._calculate_base_cost`.  The `if tariff.multi_day_prices:`
dict-truthiness test is the emptiness test on the association list. -/
def calculateBaseCost (tariff : TariffRate) (duration_days : Int) : ℚ :=
  if duration_days = 1 then tariff.price
  else if tariff.multi_day_prices ≠ [] then
    match lookupDay tariff.multi_day_prices duration_days with
    | some p => p
    | none =>
      let max_days := maxDayKey tariff.multi_day_prices
      if duration_days > (max_days : Int) then
        (lookupDay tariff.multi_day_prices max_days).getD 0
          * (duration_days : ℚ) / (max_days : ℚ)
      else tariff.price * (duration_days : ℚ)
  else tariff.price * (duration_days : ℚ)

/-- A datetime instant, also used by the booking/date components below.
Fields mirror Python `datetime` (year, month, day, hour, minute, second,
microsecond); the process-wide timezone is a fixed constant so it carries
no information. -/
structure DT where
  year : Int
  month : Nat
  day : Nat
  hour : Nat
  minute : Nat
  second : Nat
  micro : Nat
  deriving Repr, DecidableEq

/-- Leap-year rule of the proleptic Gregorian calendar (Python `calendar`). -/
def isLeap (y : Int) : Bool :=
  y % 4 == 0 && (y % 100 != 0 || y % 400 == 0)

/-- Days in a month of a given year. -/
def daysInMonth (y : Int) (m : Nat) : Nat :=
  if m = 2 then (if isLeap y then 29 else 28)
  else if m ∈ [4, 6, 9, 11] then 30
  else 31

/-- Serial day number of a civil date (days-from-civil, epoch 1970-03-01
based algorithm), used to order datetimes and to take differences the way
`timedelta` does. -/
def daysFromCivil (y : Int) (m : Nat) (d : Nat) : Int :=
  let y' : Int := if m ≤ 2 then y - 1 else y
  let era : Int := (if y' ≥ 0 then y' else y' - 399) / 400
  let yoe : Int := y' - era * 400
  let mp : Int := ((m : Int) + 9) % 12
  let doy : Int := (153 * mp + 2) / 5 + (d : Int) - 1
  let doe : Int := yoe * 365 + yoe / 4 - yoe / 100 + doy
  era * 146097 + doe - 719468

/-- Microseconds since the Unix epoch; `datetime` comparison and subtraction
are comparison and subtraction of this value. -/
def DT.toMicros (t : DT) : Int :=
  daysFromCivil t.year t.month t.day * 86400000000
    + ((t.hour * 3600 + t.minute * 60 + t.second : Nat) : Int) * 1000000
    + (t.micro : Int)

/-- `timedelta.days` of the difference of two datetimes: Python normalises a
`timedelta` so that `.days` is the floor of the span in whole days. -/
def tdDays (a b : DT) : Int :=
  Int.fdiv (a.toMicros - b.toMicros) 86400000000

/-- `domain/booking/pricing.py::PricingRequest` (the fields the pricing
service reads). -/
structure PricingRequest where
  tariff : Option String := none
  tariff_id : Option Int := none
  start_date : Option DT := none
  end_date : Option DT := none
  duration_hours : Option Int := none
  duration_days : Option Int := none
  add_ons : List String := []
  number_guests : Option Int := none
  is_weekend : Bool := false
  deriving Repr

/-- `domain/booking/pricing.py::PricingBreakdown` (the fields the claims
reference; the derived message strings live outside the breakdown). -/
structure PricingBreakdown where
  tariff_name : String
  tariff_id : Int
  base_cost : ℚ
  duration_hours : Int
  duration_days : Int
  add_on_costs : List (String × ℚ)
  total_cost : ℚ
  max_people : Int
  includes_transfer : Bool
  includes_photoshoot : Bool
  deriving Repr

/-- ASCII and Cyrillic lowering, as Python `str.lower()` acts on the
characters this repository feeds it (`A`–`Z`, `А`–`Я`, `Ё`). -/
def charLower (c : Char) : Char :=
  if 'A' ≤ c ∧ c ≤ 'Z' then Char.ofNat (c.toNat + 32)
  else if 'А' ≤ c ∧ c ≤ 'Я' then Char.ofNat (c.toNat + 32)
  else if c = 'Ё' then 'ё'
  else c

/-- `str.lower()` on the characters used by this repository. -/
def lowerStr (s : String) : String :=
  ⟨s.data.map charLower⟩

/-- `true` iff the first list is a prefix of the second. -/
def isPrefixChars : List Char → List Char → Bool
  | [], _ => true
  | _ :: _, [] => false
  | a :: as, b :: bs => a == b && isPrefixChars as bs

/-- `true` iff the first list occurs contiguously inside the second. -/
def isInfixChars (n : List Char) : List Char → Bool
  | [] => isPrefixChars n []
  | c :: t => isPrefixChars n (c :: t) || isInfixChars n t

/-- Python `needle in haystack` substring test. -/
def substr (needle haystack : String) : Bool :=
  isInfixChars needle.data haystack.data

/-- One iteration of the keyword loop in
`PricingService._get_tariff_for_request`: `true` iff the loop body would
`return tariff` for this tariff.  Each disjunct is one of the `return`
paths, in source order. -/
def matchesTariffKeywords (tariff_lower : String) (t : TariffRate) : Bool :=
  let nl := lowerStr t.name
  (substr "суточн" tariff_lower && substr "суточн" nl &&
    ((substr "двоих" tariff_lower && substr "двоих" nl) ||
      (substr "3 человек" nl ||
        (!substr "двоих" tariff_lower && !substr "двоих" nl))))
  || (substr "12" tariff_lower && substr "12" t.name &&
      ((substr "инкогнито" tariff_lower && substr "инкогнито" nl) ||
        !substr "инкогнито" tariff_lower))
  || (substr "рабочий" tariff_lower && substr "рабочий" nl)
  || (substr "инкогнито" tariff_lower && substr "инкогнито" nl &&
      ((substr "день" tariff_lower && substr "день" nl) ||
        (substr "12" tariff_lower && substr "12" t.name)))
  || (substr "абонемент" tariff_lower && substr "абонемент" nl &&
      ((substr "3" tariff_lower && t.subscription_type == 3) ||
        (substr "5" tariff_lower && t.subscription_type == 5) ||
        (substr "8" tariff_lower && t.subscription_type == 8)))

/-- `self.tariff_rates.get(id)`: the loaded tariff table is an insertion
ordered list keyed by the (unique) tariff id. -/
def ratesGet (rates : List TariffRate) (id : Int) : Option TariffRate :=
  rates.find? (fun t => t.tariff == id)

/-- `PricingService._get_tariff_for_request`.  An explicit id is looked up
directly (possibly yielding nothing); otherwise a non-empty informal tariff
string is run through the ordered keyword rules; otherwise / on no match
the default tariff id 1 is used. -/
def getTariffForRequest (rates : List TariffRate) (req : PricingRequest) :
    Option TariffRate :=
  match req.tariff_id with
  | some id => ratesGet rates id
  | none =>
    let byName : Option TariffRate :=
      match req.tariff with
      | some s =>
        if s = "" then none
        else rates.find? (matchesTariffKeywords (lowerStr s))
      | none => none
    match byName with
    | some t => some t
    | none => ratesGet rates 1

/-- `PricingService._calculate_duration_days`.  `if request.duration_days:`
is Python truthiness, so an explicit `0` falls through to the date range. -/
def calculateDurationDays (req : PricingRequest) : Int :=
  match req.duration_days with
  | some n => if n ≠ 0 then n else calculateDurationDaysFromDates req
  | none => calculateDurationDaysFromDates req
where
  calculateDurationDaysFromDates (req : PricingRequest) : Int :=
    match req.start_date, req.end_date with
    | some s, some e => max 1 (tdDays e s)
    | _, _ => 1

/-- Dict assignment `m[k] = v`: overwrite in place if the key exists,
otherwise append (Python dict insertion order). -/
def dictSet {β : Type} (m : List (String × β)) (k : String) (v : β) :
    List (String × β) :=
  if m.any (fun p => p.1 == k) then
    m.map (fun p => if p.1 == k then (k, v) else p)
  else m ++ [(k, v)]

/-- `PricingService._calculate_add_on_costs`: walk the request's add-on list
in order; each recognised add-on with a positive tariff price is written
into the cost dict under its Russian label. -/
def calculateAddOnCosts (req : PricingRequest) (t : TariffRate) :
    List (String × ℚ) :=
  req.add_ons.foldl
    (fun costs sid =>
      if sid == "sauna" && decide (0 < t.sauna_price) then
        dictSet costs "Сауна" t.sauna_price
      else if sid == "secret_room" && decide (0 < t.secret_room_price) then
        dictSet costs "Секретная комната" t.secret_room_price
      else if sid == "second_bedroom" && decide (0 < t.second_bedroom_price) then
        dictSet costs "Вторая спальня" t.second_bedroom_price
      else if sid == "photoshoot" && decide (0 < t.photoshoot_price) then
        dictSet costs "Фотосъемка" t.photoshoot_price
      else costs)
    []

/-- `sum(add_on_costs.values())`. -/
def sumValues (m : List (String × ℚ)) : ℚ :=
  (m.map (·.2)).sum

/-- `PricingService.calculate_pricing` up to the `PricingBreakdown` it
constructs.  The only raised error is the unknown-tariff `ValueError`
(message as in the source); the derived message strings do not feed back
into the breakdown and are not modelled. -/
def calculatePricing (rates : List TariffRate) (req : PricingRequest) :
    Except String PricingBreakdown :=
  match getTariffForRequest rates req with
  | none => .error "Неизвестный тариф"
  | some tariff =>
    let duration_days := calculateDurationDays req
    let base_cost := calculateBaseCost tariff duration_days
    let add_on_costs := calculateAddOnCosts req tariff
    let total_cost := base_cost + sumValues add_on_costs
    .ok
      { tariff_name := tariff.name
        tariff_id := tariff.tariff
        base_cost := base_cost
        duration_hours := tariff.duration_hours
        duration_days := duration_days
        add_on_costs := add_on_costs
        total_cost := total_cost
        max_people := tariff.max_people
        includes_transfer := tariff.is_transfer
        includes_photoshoot :=
          tariff.is_photoshoot && decide (tariff.photoshoot_price = 0) }

/-- Modelled from the spec: the repository's tariff configuration file
(`config/pricing_config.json`, not part of the sources here) as far as the
spec pins it down — tariff id 1 ("daily, 3+ guests") has flat price 700 and
multi-day table `{"1": 700, "2": 1300, "3": 1850}` (§8 scenarios), and the
default tariff id 1 is present.  Only used to instantiate witnesses. -/
def configTariff1 : TariffRate :=
  { tariff := 1
    name := "тариф 'Суточно' от 3 человек"
    duration_hours := 24
    price := 700
    sauna_price := 100
    secret_room_price := 0
    second_bedroom_price := 0
    extra_hour_price := 30
    extra_people_price := 0
    photoshoot_price := 100
    max_people := 6
    is_check_in_time_limit := false
    is_photoshoot := true
    is_transfer := false
    subscription_type := 0
    multi_day_prices := [(1, 700), (2, 1300), (3, 1850)] }

/-- Modelled from the spec: the loaded tariff table of
`config/pricing_config.json` (the config file itself is not among the
sources), restricted to what the spec pins down; it contains the default
tariff id 1.  Only used to instantiate witnesses. -/
def configRates : List TariffRate := [configTariff1]

/-! ### Claim C1: base-cost formula -/

/-- Price table entry for a day count, written from the spec's words
("the per-day-count price table"). -/
def specTablePrice (t : TariffRate) (k : Nat) : Option ℚ :=
  t.multi_day_prices.lookup k

/-- The largest tabulated day count, written from the spec's words. -/
def specLargestDay (t : TariffRate) : Nat :=
  (t.multi_day_prices.map Prod.fst).foldr Nat.max 0

/-- Claim C1's base-cost formula, transcribed from the claim's words: flat
price for one day; table entry when tabulated; otherwise extrapolation from
the largest tabulated day count; flat price times the day count only when
there is no table at all. -/
def baseCostClaimC1 (t : TariffRate) (d : Nat) : ℚ :=
  if d = 1 then t.price
  else if t.multi_day_prices = [] then t.price * (d : ℚ)
  else
    match specTablePrice t d with
    | some p => p
    | none =>
      (specTablePrice t (specLargestDay t)).getD 0 * (d : ℚ)
        / ((specLargestDay t : ℚ))

/-- Claim C1 as the code forces it to be amended: extrapolation happens only
when the requested day count exceeds the largest tabulated one; a day count
that falls inside the table's range without an exact entry is billed at the
flat price times the day count, just as with no table. -/
def baseCostAmendedC1 (t : TariffRate) (d : Nat) : ℚ :=
  if d = 1 then t.price
  else if t.multi_day_prices = [] then t.price * (d : ℚ)
  else
    match specTablePrice t d with
    | some p => p
    | none =>
      if specLargestDay t < d then
        (specTablePrice t (specLargestDay t)).getD 0 * (d : ℚ)
          / ((specLargestDay t : ℚ))
      else t.price * (d : ℚ)

/-- A tariff with a gap below its largest tabulated day count: flat price
700, multi-day table with the single entry `"3": 1850`. -/
def gapTariff : TariffRate :=
  { tariff := 1
    name := "тариф 'Суточно' от 3 человек"
    duration_hours := 24
    price := 700
    sauna_price := 100
    secret_room_price := 0
    second_bedroom_price := 0
    extra_hour_price := 30
    extra_people_price := 0
    photoshoot_price := 100
    max_people := 6
    is_check_in_time_limit := false
    is_photoshoot := true
    is_transfer := false
    subscription_type := 0
    multi_day_prices := [(3, 1850)] }

/-- The element-wise characterisation of `lookupDay` used by the C1 and C9
proofs: the source's `find?` over the association list agrees with
`List.lookup` once the `Int` cast on keys is stripped. -/
theorem lookupDay_eq_lookup (table : List (Nat × ℚ)) (d : Nat) :
    lookupDay table (d : Int) = table.lookup d := by
  induction table with
  | nil => rfl
  | cons p t ih =>
    simp only [lookupDay, List.find?, List.lookup] at *
    by_cases h : p.1 = d
    · simp [h]
    · have h1 : ((p.1 : Int) == (d : Int)) = false := by
        simp [beq_iff_eq]; omega
      have h2 : (d == p.1) = false := by
        simp [beq_iff_eq]; omega
      simp [h1, h2, ih]

/-- Folding `Nat.max` from the left starting at `a` is `a ⊔` the right
fold. -/
theorem foldl_max_eq_foldr (l : List Nat) (a : Nat) :
    l.foldl Nat.max a = Nat.max a (l.foldr Nat.max 0) := by
  induction l generalizing a with
  | nil => simp
  | cons c t ih =>
    simp only [List.foldl, List.foldr, ih]
    exact Nat.max_assoc a c _

/-- The source's running maximum over the day-count keys is the spec-side
largest tabulated day count. -/
theorem maxDayKey_eq_specLargestDay (t : TariffRate) :
    maxDayKey t.multi_day_prices = specLargestDay t := by
  simp [maxDayKey, specLargestDay, foldl_max_eq_foldr]

/-- Counterexample to claim C1: for the tariff with table `{"3": 1850}` and
flat price 700, a 2-day request is billed `700 * 2 = 1400` by the code,
while the claim's "otherwise extrapolate from the largest tabulated day
count" formula yields `1850 * 2 / 3`. -/
theorem base_cost_claim_c1_false :
    calculateBaseCost gapTariff 2 = 1400 ∧
      baseCostClaimC1 gapTariff 2 = 3700 / 3 ∧
      (1400 : ℚ) ≠ 3700 / 3 := by
  refine ⟨?_, ?_, by norm_num⟩
  · simp +decide [calculateBaseCost, gapTariff, lookupDay, maxDayKey,
      List.find?]
    norm_num
  · simp +decide [baseCostClaimC1, gapTariff, specTablePrice, specLargestDay,
      List.lookup]
    norm_num

/-- Claim C1 as amended: for every tariff and day count `d ≥ 1`, the code's
base cost is the flat price for one day; the table entry when `d` is
tabulated; the linear extrapolation `table[max] * d / max` only when `d`
exceeds the largest tabulated day count; and the flat price times `d`
otherwise (no table at all, or `d` inside the table's range without an
entry).  Decimal arithmetic is modelled as exact rational arithmetic. -/
theorem base_cost_amended_c1 (t : TariffRate) (d : Nat) (hd : 1 ≤ d) :
    calculateBaseCost t (d : Int) = baseCostAmendedC1 t d := by
  clear hd
  unfold calculateBaseCost baseCostAmendedC1 specTablePrice
  by_cases h1 : d = 1
  · simp [h1]
  · have h1' : ¬((d : Int) = 1) := by omega
    rw [if_neg h1', if_neg h1]
    by_cases h2 : t.multi_day_prices = []
    · rw [if_neg (by simp [h2]), if_pos h2]
      push_cast
      ring
    · rw [if_pos h2, if_neg h2]
      rw [lookupDay_eq_lookup, maxDayKey_eq_specLargestDay]
      cases hl : t.multi_day_prices.lookup d with
      | some p => rfl
      | none =>
        dsimp only
        by_cases h3 : specLargestDay t < d
        · rw [if_pos (by omega : (d : Int) > (specLargestDay t : Int)),
            if_pos h3, lookupDay_eq_lookup]
          push_cast
          ring
        · rw [if_neg (by omega : ¬((d : Int) > (specLargestDay t : Int))),
            if_neg h3]
          push_cast
          ring

/-- Witness for the amended C1 at the spec's own scenario: tariff id 1 with
table max entry `"3": 1850`, 5-day request. -/
theorem base_cost_amended_c1_witness :
    calculateBaseCost gapTariff (5 : Nat) = baseCostAmendedC1 gapTariff 5 :=
  base_cost_amended_c1 gapTariff 5 (by decide)

/-! ### Claim C4: the unknown-tariff error -/

/-- `getTariffForRequest` returns nothing exactly for an explicit id that is
absent from the table, provided the table holds the default tariff id 1. -/
theorem getTariff_none_iff (rates : List TariffRate) (req : PricingRequest)
    (hdefault : (ratesGet rates 1).isSome) :
    getTariffForRequest rates req = none ↔
      ∃ id, req.tariff_id = some id ∧ ratesGet rates id = none := by
  unfold getTariffForRequest
  cases hid : req.tariff_id with
  | some id => simp [hid]
  | none =>
    simp only [hid]
    constructor
    · intro h
      cases hb : (match req.tariff with
        | some s =>
          if s = "" then none
          else rates.find? (matchesTariffKeywords (lowerStr s))
        | none => (none : Option TariffRate)) with
      | some t => rw [hb] at h; cases h
      | none =>
        rw [hb] at h
        dsimp only at h
        rw [h] at hdefault
        cases hdefault
    · rintro ⟨id, hcontra, -⟩
      cases hcontra

/-- Claim C4: `calculate_pricing` raises its unknown-tariff error exactly
when the request carries an explicit tariff id with no definition in the
loaded table (which, per the shipped configuration, contains the default
tariff id 1); every request without an explicit id resolves to some
tariff. -/
theorem unknown_tariff_iff_c4 (rates : List TariffRate) (req : PricingRequest)
    (hdefault : (ratesGet rates 1).isSome) :
    ((∃ msg, calculatePricing rates req = .error msg) ↔
        ∃ id, req.tariff_id = some id ∧ ratesGet rates id = none) ∧
      (req.tariff_id = none → (getTariffForRequest rates req).isSome) := by
  constructor
  · rw [← getTariff_none_iff rates req hdefault]
    unfold calculatePricing
    cases h : getTariffForRequest rates req <;> simp [h]
  · intro hid
    cases h : getTariffForRequest rates req with
    | none =>
      obtain ⟨id, hids, -⟩ := (getTariff_none_iff rates req hdefault).mp h
      rw [hid] at hids
      cases hids
    | some t => simp

/-- A pricing request with an explicit tariff id that has no definition. -/
def reqUnknownTariff : PricingRequest := { tariff_id := some 999 }

/-- Witness for C4: on the modelled config table, the request with explicit
id 999 exercises the theorem. -/
theorem unknown_tariff_iff_c4_witness :
    ((∃ msg, calculatePricing configRates reqUnknownTariff = .error msg) ↔
        ∃ id, reqUnknownTariff.tariff_id = some id ∧
          ratesGet configRates id = none) ∧
      (reqUnknownTariff.tariff_id = none →
        (getTariffForRequest configRates reqUnknownTariff).isSome) :=
  unknown_tariff_iff_c4 configRates reqUnknownTariff (by decide)

/-! ### Claim C7: add-on cost map -/

/-- The four selectable add-ons of the pricing engine. -/
inductive AddOnKind where
  | sauna | secretRoom | secondBedroom | photoshoot
  deriving DecidableEq

/-- Service id of an add-on, as it appears in `request.add_ons`. -/
def AddOnKind.sid : AddOnKind → String
  | .sauna => "sauna"
  | .secretRoom => "secret_room"
  | .secondBedroom => "second_bedroom"
  | .photoshoot => "photoshoot"

/-- Russian label under which `_calculate_add_on_costs` stores the cost. -/
def AddOnKind.label : AddOnKind → String
  | .sauna => "Сауна"
  | .secretRoom => "Секретная комната"
  | .secondBedroom => "Вторая спальня"
  | .photoshoot => "Фотосъемка"

/-- Tariff-specific price of an add-on. -/
def AddOnKind.price (t : TariffRate) : AddOnKind → ℚ
  | .sauna => t.sauna_price
  | .secretRoom => t.secret_room_price
  | .secondBedroom => t.second_bedroom_price
  | .photoshoot => t.photoshoot_price

/-- One `elif` arm of `_calculate_add_on_costs` as a partial recogniser:
the (label, price) entry a service id would contribute, if any. -/
def recognizeAddOn (t : TariffRate) (sid : String) : Option (String × ℚ) :=
  if sid == "sauna" && decide (0 < t.sauna_price) then
    some ("Сауна", t.sauna_price)
  else if sid == "secret_room" && decide (0 < t.secret_room_price) then
    some ("Секретная комната", t.secret_room_price)
  else if sid == "second_bedroom" && decide (0 < t.second_bedroom_price) then
    some ("Вторая спальня", t.second_bedroom_price)
  else if sid == "photoshoot" && decide (0 < t.photoshoot_price) then
    some ("Фотосъемка", t.photoshoot_price)
  else none

/-- The loop body of `_calculate_add_on_costs`, factored through
`recognizeAddOn`. -/
def stepAddOn (t : TariffRate) (costs : List (String × ℚ)) (sid : String) :
    List (String × ℚ) :=
  match recognizeAddOn t sid with
  | some (k, v) => dictSet costs k v
  | none => costs

/-- The key order claim C7 asserts, written from the claim's words: the
labels of the recognised add-ons in the insertion order of the request's
add-on list, first occurrences only. -/
def addOnKeysClaim (t : TariffRate) : List String → List String → List String
  | [], _ => []
  | sid :: rest, seen =>
    match recognizeAddOn t sid with
    | some (k, _) =>
      if seen.contains k then addOnKeysClaim t rest seen
      else k :: addOnKeysClaim t rest (seen ++ [k])
    | none => addOnKeysClaim t rest seen

/-- Which add-on a service id denotes. -/
def kindOf (s : String) : Option AddOnKind :=
  if s = "sauna" then some .sauna
  else if s = "secret_room" then some .secretRoom
  else if s = "second_bedroom" then some .secondBedroom
  else if s = "photoshoot" then some .photoshoot
  else none

theorem calculateAddOnCosts_eq_fold (req : PricingRequest) (t : TariffRate) :
    calculateAddOnCosts req t = req.add_ons.foldl (stepAddOn t) [] := by
  unfold calculateAddOnCosts
  apply List.foldl_ext
  intro costs sid _
  unfold stepAddOn recognizeAddOn
  by_cases h1 : (sid == "sauna" && decide (0 < t.sauna_price)) = true
  · simp only [h1, if_true]
  · simp only [h1, Bool.false_eq_true, if_false]
    by_cases h2 : (sid == "secret_room" && decide (0 < t.secret_room_price)) = true
    · simp only [h2, if_true]
    · simp only [h2, Bool.false_eq_true, if_false]
      by_cases h3 :
          (sid == "second_bedroom" && decide (0 < t.second_bedroom_price)) = true
      · simp only [h3, if_true]
      · simp only [h3, Bool.false_eq_true, if_false]
        by_cases h4 : (sid == "photoshoot" && decide (0 < t.photoshoot_price)) = true
        · simp only [h4, if_true]
        · simp only [h4, Bool.false_eq_true, if_false]

theorem recognize_eq_kind (t : TariffRate) (s : String) :
    recognizeAddOn t s = (kindOf s).bind
      (fun kind => if 0 < kind.price t then some (kind.label, kind.price t)
                   else none) := by
  unfold recognizeAddOn kindOf
  by_cases h1 : s = "sauna"
  · subst h1
    by_cases hp : (0 : ℚ) < t.sauna_price <;>
      simp +decide [hp, AddOnKind.price, AddOnKind.label]
  by_cases h2 : s = "secret_room"
  · subst h2
    by_cases hp : (0 : ℚ) < t.secret_room_price <;>
      simp +decide [hp, AddOnKind.price, AddOnKind.label]
  by_cases h3 : s = "second_bedroom"
  · subst h3
    by_cases hp : (0 : ℚ) < t.second_bedroom_price <;>
      simp +decide [hp, AddOnKind.price, AddOnKind.label]
  by_cases h4 : s = "photoshoot"
  · subst h4
    by_cases hp : (0 : ℚ) < t.photoshoot_price <;>
      simp +decide [hp, AddOnKind.price, AddOnKind.label]
  simp [h1, h2, h3, h4, beq_false_of_ne h1, beq_false_of_ne h2,
    beq_false_of_ne h3, beq_false_of_ne h4]

theorem kindOf_eq_some (s : String) (kind : AddOnKind) :
    kindOf s = some kind ↔ s = kind.sid := by
  cases kind <;>
    · unfold kindOf
      by_cases h1 : s = "sauna" <;> by_cases h2 : s = "secret_room" <;>
        by_cases h3 : s = "second_bedroom" <;>
        by_cases h4 : s = "photoshoot" <;>
        simp_all +decide [AddOnKind.sid]

theorem recognize_label_iff (t : TariffRate) (s : String) (kind : AddOnKind) :
    (∃ v, recognizeAddOn t s = some (kind.label, v)) ↔
      (s = kind.sid ∧ 0 < kind.price t) := by
  rw [recognize_eq_kind]
  cases hk : kindOf s with
  | none =>
    simp only [hk, Option.none_bind]
    constructor
    · rintro ⟨v, hv⟩
      cases hv
    · rintro ⟨rfl, -⟩
      rw [(kindOf_eq_some kind.sid kind).mpr rfl] at hk
      cases hk
  | some kind1 =>
    simp only [hk, Option.some_bind]
    have hs := (kindOf_eq_some s kind1).mp hk
    by_cases hkk : kind1 = kind
    · subst hkk
      by_cases hp : 0 < kind1.price t
      · rw [if_pos hp]
        subst hs
        simp [hp]
      · rw [if_neg hp]
        constructor
        · rintro ⟨v, hv⟩
          cases hv
        · rintro ⟨-, hp2⟩
          exact absurd hp2 hp
    · have hlab : kind1.label ≠ kind.label := by
        cases kind1 <;> cases kind <;> simp_all +decide [AddOnKind.label]
      have hsid : kind1.sid ≠ kind.sid := by
        cases kind1 <;> cases kind <;> simp_all +decide [AddOnKind.sid]
      constructor
      · rintro ⟨v, hv⟩
        by_cases hp : 0 < kind1.price t
        · rw [if_pos hp] at hv
          exact absurd (congrArg Prod.fst (Option.some.inj hv)) hlab
        · rw [if_neg hp] at hv
          cases hv
      · rintro ⟨rfl, -⟩
        exact absurd hs.symm hsid

theorem recognize_at_sid (t : TariffRate) (kind : AddOnKind)
    (hp : 0 < kind.price t) :
    recognizeAddOn t kind.sid = some (kind.label, kind.price t) := by
  rw [recognize_eq_kind, (kindOf_eq_some kind.sid kind).mpr rfl]
  simp [hp]

theorem dictSet_map_fst {β : Type} (m : List (String × β)) (k : String) (v : β) :
    (dictSet m k v).map Prod.fst =
      if (m.map Prod.fst).contains k then m.map Prod.fst
      else m.map Prod.fst ++ [k] := by
  unfold dictSet
  have h : (m.map Prod.fst).contains k = m.any (fun p => p.1 == k) := by
    induction m with
    | nil => rfl
    | cons p rest ih =>
      simp only [List.map_cons, List.contains_cons, List.any_cons, ih]
      congr 1
      by_cases hkp : k = p.1
      · subst hkp; rfl
      · rw [beq_false_of_ne hkp, beq_false_of_ne (Ne.symm hkp)]
  rw [h]
  by_cases hc : m.any (fun p => p.1 == k) = true
  · simp only [hc, if_true]
    rw [List.map_map]
    apply List.map_congr_left
    intro p _
    by_cases hpk : p.1 = k
    · simp [Function.comp, hpk]
    · simp [Function.comp, hpk]
  · simp [hc]

theorem fold_addon_map_fst (t : TariffRate) (l : List String) :
    ∀ acc : List (String × ℚ),
      (l.foldl (stepAddOn t) acc).map Prod.fst =
        acc.map Prod.fst ++ addOnKeysClaim t l (acc.map Prod.fst) := by
  induction l with
  | nil => intro acc; simp [addOnKeysClaim]
  | cons sid rest ih =>
    intro acc
    simp only [List.foldl, addOnKeysClaim]
    cases hr : recognizeAddOn t sid with
    | none =>
      rw [show stepAddOn t acc sid = acc from by simp [stepAddOn, hr], ih]
    | some kv =>
      obtain ⟨k, v⟩ := kv
      rw [show stepAddOn t acc sid = dictSet acc k v from by
        simp [stepAddOn, hr], ih, dictSet_map_fst]
      dsimp only
      by_cases hc : (acc.map Prod.fst).contains k = true
      · rw [if_pos hc, if_pos hc]
      · rw [if_neg hc, if_neg hc]
        simp

theorem mem_dictSet_fst {β : Type} (m : List (String × β)) (k1 : String)
    (v : β) (k : String) :
    k ∈ (dictSet m k1 v).map Prod.fst ↔ (k ∈ m.map Prod.fst ∨ k = k1) := by
  rw [dictSet_map_fst]
  by_cases hc : (m.map Prod.fst).contains k1 = true
  · rw [if_pos hc]
    have h1 : k1 ∈ m.map Prod.fst := List.mem_of_elem_eq_true hc
    constructor
    · exact Or.inl
    · rintro (h | rfl)
      · exact h
      · exact h1
  · rw [if_neg hc]
    simp

theorem mem_fold_addon_keys (t : TariffRate) (l : List String) :
    ∀ (acc : List (String × ℚ)) (k : String),
      k ∈ (l.foldl (stepAddOn t) acc).map Prod.fst ↔
        (k ∈ acc.map Prod.fst ∨
          ∃ s ∈ l, ∃ v, recognizeAddOn t s = some (k, v)) := by
  induction l with
  | nil => intro acc k; simp
  | cons sid rest ih =>
    intro acc k
    simp only [List.foldl]
    rw [ih]
    cases hr : recognizeAddOn t sid with
    | none =>
      rw [show stepAddOn t acc sid = acc from by simp [stepAddOn, hr]]
      constructor
      · rintro (h | ⟨s, hs, v, hv⟩)
        · exact Or.inl h
        · exact Or.inr ⟨s, List.mem_cons_of_mem _ hs, v, hv⟩
      · rintro (h | ⟨s, hs, v, hv⟩)
        · exact Or.inl h
        · rcases List.mem_cons.mp hs with rfl | hs1
          · rw [hr] at hv
            cases hv
          · exact Or.inr ⟨s, hs1, v, hv⟩
    | some kv =>
      obtain ⟨k1, v1⟩ := kv
      rw [show stepAddOn t acc sid = dictSet acc k1 v1 from by
        simp [stepAddOn, hr]]
      rw [mem_dictSet_fst]
      constructor
      · rintro ((h | rfl) | ⟨s, hs, v, hv⟩)
        · exact Or.inl h
        · exact Or.inr ⟨sid, List.mem_cons_self _ _, v1, hr⟩
        · exact Or.inr ⟨s, List.mem_cons_of_mem _ hs, v, hv⟩
      · rintro (h | ⟨s, hs, v, hv⟩)
        · exact Or.inl (Or.inl h)
        · rcases List.mem_cons.mp hs with rfl | hs1
          · rw [hr] at hv
            exact Or.inl (Or.inr (congrArg Prod.fst (Option.some.inj hv)).symm)
          · exact Or.inr ⟨s, hs1, v, hv⟩

theorem mem_dictSet {β : Type} (m : List (String × β)) (k1 : String) (v1 : β)
    (p : String × β) (hp : p ∈ dictSet m k1 v1) : p ∈ m ∨ p = (k1, v1) := by
  unfold dictSet at hp
  by_cases hc : m.any (fun q => q.1 == k1) = true
  · rw [if_pos hc] at hp
    obtain ⟨q, hq, hqe⟩ := List.mem_map.mp hp
    by_cases hqk : q.1 = k1
    · right
      rw [← hqe]
      simp [hqk]
    · left
      rw [← hqe]
      simp [hqk]
      exact hq
  · rw [if_neg hc] at hp
    rcases List.mem_append.mp hp with h | h
    · exact Or.inl h
    · exact Or.inr (List.mem_singleton.mp h)

theorem fold_addon_values (t : TariffRate) (l : List String) :
    ∀ acc : List (String × ℚ),
      (∀ p ∈ acc, ∃ s, recognizeAddOn t s = some p) →
      ∀ p ∈ l.foldl (stepAddOn t) acc, ∃ s, recognizeAddOn t s = some p := by
  induction l with
  | nil => intro acc hacc p hp; exact hacc p hp
  | cons sid rest ih =>
    intro acc hacc p hp
    simp only [List.foldl] at hp
    refine ih _ ?_ p hp
    intro q hq
    unfold stepAddOn at hq
    cases hr : recognizeAddOn t sid with
    | none =>
      rw [hr] at hq
      exact hacc q hq
    | some kv =>
      rw [hr] at hq
      rcases mem_dictSet _ _ _ _ hq with h | rfl
      · exact hacc q h
      · exact ⟨sid, by rw [hr]⟩

/-- Claim C7: in the computed breakdown, (i) the add-on cost map holds an
entry for each of the four add-ons exactly when the add-on was selected and
its tariff-specific price is positive, (ii) the keys appear in the insertion
order of the request's add-on list (first occurrences), (iii) every entry's
value is the add-on's tariff-specific price, and (iv) the total cost is the
base cost plus the sum of the add-on costs. -/
theorem addon_costs_c7 (rates : List TariffRate) (req : PricingRequest)
    (t : TariffRate) (b : PricingBreakdown)
    (hres : getTariffForRequest rates req = some t)
    (hok : calculatePricing rates req = .ok b) :
    (∀ kind : AddOnKind, kind.label ∈ b.add_on_costs.map Prod.fst ↔
        (kind.sid ∈ req.add_ons ∧ 0 < kind.price t)) ∧
      b.add_on_costs.map Prod.fst = addOnKeysClaim t req.add_ons [] ∧
      (∀ p ∈ b.add_on_costs, ∃ kind : AddOnKind,
        p = (kind.label, kind.price t)) ∧
      b.total_cost = b.base_cost + sumValues b.add_on_costs := by
  unfold calculatePricing at hok
  rw [hres] at hok
  injection hok with hb
  subst hb
  dsimp only
  refine ⟨?_, ?_, ?_, rfl⟩
  · intro kind
    rw [calculateAddOnCosts_eq_fold, mem_fold_addon_keys]
    constructor
    · rintro (h | ⟨s, hs, v, hv⟩)
      · cases h
      · obtain ⟨rfl, hp⟩ := (recognize_label_iff t s kind).mp ⟨v, hv⟩
        exact ⟨hs, hp⟩
    · rintro ⟨hmem, hp⟩
      exact Or.inr ⟨kind.sid, hmem, kind.price t, recognize_at_sid t kind hp⟩
  · rw [calculateAddOnCosts_eq_fold, fold_addon_map_fst]
    rfl
  · intro p hp
    rw [calculateAddOnCosts_eq_fold] at hp
    obtain ⟨s, hs⟩ :=
      fold_addon_values t req.add_ons [] (by intro q hq; cases hq) p hp
    rw [recognize_eq_kind] at hs
    cases hk : kindOf s with
    | none => rw [hk] at hs; cases hs
    | some kind =>
      rw [hk, Option.some_bind] at hs
      by_cases hp1 : 0 < kind.price t
      · rw [if_pos hp1] at hs
        exact ⟨kind, (Option.some.inj hs).symm⟩
      · rw [if_neg hp1] at hs
        cases hs

/-- Request used for the C7 witness: tariff id 1, one day, sauna selected. -/
def reqAddOns : PricingRequest :=
  { tariff_id := some 1, duration_days := some 1, add_ons := ["sauna"] }

/-- The breakdown `calculate_pricing` produces for `reqAddOns` on the
modelled config. -/
def breakdownAddOns : PricingBreakdown :=
  { tariff_name := "тариф 'Суточно' от 3 человек"
    tariff_id := 1
    base_cost := 700
    duration_hours := 24
    duration_days := 1
    add_on_costs := [("Сауна", 100)]
    total_cost := 800
    max_people := 6
    includes_transfer := false
    includes_photoshoot := false }

/-- Witness for C7 at the concrete sauna request. -/
theorem addon_costs_c7_witness :
    (∀ kind : AddOnKind,
        kind.label ∈ breakdownAddOns.add_on_costs.map Prod.fst ↔
          (kind.sid ∈ reqAddOns.add_ons ∧ 0 < kind.price configTariff1)) ∧
      breakdownAddOns.add_on_costs.map Prod.fst =
        addOnKeysClaim configTariff1 reqAddOns.add_ons [] ∧
      (∀ p ∈ breakdownAddOns.add_on_costs, ∃ kind : AddOnKind,
        p = (kind.label, kind.price configTariff1)) ∧
      breakdownAddOns.total_cost =
        breakdownAddOns.base_cost + sumValues breakdownAddOns.add_on_costs :=
  addon_costs_c7 configRates reqAddOns configTariff1 breakdownAddOns
    (by decide)
    (by
      unfold calculatePricing getTariffForRequest ratesGet configRates
        calculateDurationDays calculateBaseCost calculateAddOnCosts
      norm_num [configTariff1, reqAddOns, breakdownAddOns, dictSet, sumValues])

/-! ### Claim C9: cost monotone in duration -/

theorem foldr_max_mem (l : List Nat) (h : l ≠ []) : l.foldr Nat.max 0 ∈ l := by
  induction l with
  | nil => exact absurd rfl h
  | cons x xs ih =>
    cases hxs : xs with
    | nil => simp [hxs]
    | cons y ys =>
      rw [← hxs]
      have hne : xs ≠ [] := by simp [hxs]
      simp only [List.foldr]
      rcases Nat.le_total x (List.foldr Nat.max 0 xs) with hle | hle
      · have hm : Nat.max x (List.foldr Nat.max 0 xs) = List.foldr Nat.max 0 xs :=
          Nat.max_eq_right hle
        rw [hm]
        exact List.mem_cons_of_mem _ (ih hne)
      · have hm : Nat.max x (List.foldr Nat.max 0 xs) = x := Nat.max_eq_left hle
        rw [hm]
        exact List.mem_cons_self _ _

theorem maxDayKey_mem (table : List (Nat × ℚ)) (h : table ≠ []) :
    maxDayKey table ∈ table.map Prod.fst := by
  have hne : table.map Prod.fst ≠ [] := by simpa using h
  have heq : maxDayKey table = (table.map Prod.fst).foldr Nat.max 0 := by
    rw [maxDayKey, foldl_max_eq_foldr]
    exact Nat.zero_max _
  rw [heq]
  exact foldr_max_mem _ hne

theorem lookupDay_at_key (table : List (Nat × ℚ)) (k : Nat)
    (h : k ∈ table.map Prod.fst) :
    ∃ pr ∈ table, pr.1 = k ∧ lookupDay table (k : Int) = some pr.2 := by
  obtain ⟨pr, hpr, hprk⟩ := List.mem_map.mp h
  have hsome : (table.find? (fun p => (p.1 : Int) == (k : Int))).isSome := by
    rw [List.find?_isSome]
    exact ⟨pr, hpr, by simp [hprk]⟩
  obtain ⟨q, hq⟩ := Option.isSome_iff_exists.mp hsome
  have hqmem : q ∈ table := List.mem_of_find?_eq_some hq
  have hqk : (q.1 : Int) = (k : Int) := by
    have := List.find?_some hq
    simpa using this
  have hqk1 : q.1 = k := by exact_mod_cast hqk
  exact ⟨q, hqmem, hqk1, by simp [lookupDay, hq]⟩

/-- On a tariff whose multi-day table undercuts nothing — every tabulated
price at least the (nonnegative) flat price, all day-count keys positive —
the base cost for more than one day is at least the flat price. -/
theorem base_cost_ge_price (t : TariffRate) (d : Int)
    (hd : 1 < d) (hp : 0 ≤ t.price)
    (htab : ∀ p ∈ t.multi_day_prices, t.price ≤ p.2)
    (hkeys : ∀ p ∈ t.multi_day_prices, 1 ≤ p.1) :
    t.price ≤ calculateBaseCost t d := by
  have hd1 : (1 : ℚ) ≤ (d : ℚ) := by exact_mod_cast (by omega : (1 : Int) ≤ d)
  have hflat : t.price ≤ t.price * (d : ℚ) := le_mul_of_one_le_right hp hd1
  unfold calculateBaseCost
  rw [if_neg (by omega : ¬(d = 1))]
  by_cases htable : t.multi_day_prices = []
  · rw [if_neg (by simp [htable])]
    exact hflat
  · rw [if_pos htable]
    cases hl : lookupDay t.multi_day_prices d with
    | some p =>
      obtain ⟨pr, hfind⟩ : ∃ pr,
          t.multi_day_prices.find? (fun q => (q.1 : Int) == d) = some pr ∧
            pr.2 = p := by
        unfold lookupDay at hl
        cases hf : t.multi_day_prices.find? (fun q => (q.1 : Int) == d) with
        | none => rw [hf] at hl; cases hl
        | some pr => rw [hf] at hl; exact ⟨pr, rfl, by simpa using hl⟩
      have hmem := List.mem_of_find?_eq_some hfind.1
      calc t.price ≤ pr.2 := htab pr hmem
        _ = p := hfind.2
    | none =>
      dsimp only
      by_cases hgt : d > (maxDayKey t.multi_day_prices : Int)
      · rw [if_pos hgt]
        obtain ⟨pr, hmem, hprk, hlook⟩ := lookupDay_at_key t.multi_day_prices
          (maxDayKey t.multi_day_prices) (maxDayKey_mem t.multi_day_prices htable)
        rw [hlook]
        have hpr2 : t.price ≤ pr.2 := htab pr hmem
        have hM1 : 1 ≤ maxDayKey t.multi_day_prices := hprk ▸ hkeys pr hmem
        have hM0 : (0 : ℚ) < (maxDayKey t.multi_day_prices : ℚ) := by
          exact_mod_cast Nat.lt_of_lt_of_le Nat.zero_lt_one hM1
        have hMd : ((maxDayKey t.multi_day_prices : Nat) : ℚ) ≤ (d : ℚ) := by
          have hi : ((maxDayKey t.multi_day_prices : Nat) : Int) ≤ d := by omega
          exact_mod_cast hi
        have hdiv : (1 : ℚ) ≤ (d : ℚ) / (maxDayKey t.multi_day_prices : ℚ) :=
          (one_le_div hM0).mpr hMd
        calc t.price ≤ pr.2 := hpr2
          _ ≤ pr.2 * ((d : ℚ) / (maxDayKey t.multi_day_prices : ℚ)) :=
              le_mul_of_one_le_right (hp.trans hpr2) hdiv
          _ = (some pr.2).getD 0 * (d : ℚ) / (maxDayKey t.multi_day_prices : ℚ) := by
              simp [mul_div_assoc]
      · rw [if_neg hgt]
        exact hflat

/-- A tariff whose 2-day table entry (100) undercuts its flat price (700):
a valid `TariffRate` value on which claim C9 fails. -/
def cheapTariff : TariffRate :=
  { configTariff1 with multi_day_prices := [(2, 100)] }

/-- A 2-day request on `cheapTariff` with no add-ons. -/
def reqCheap : PricingRequest :=
  { tariff_id := some 1, duration_days := some 2 }

/-- Counterexample to claim C9 as stated over every tariff: on `cheapTariff`
the 2-day total (100) is below the 1-day base cost (700). -/
theorem cost_monotonic_claim_c9_false :
    (calculatePricing [cheapTariff] reqCheap).toOption.map
        PricingBreakdown.total_cost = some 100 ∧
      calculateBaseCost cheapTariff 1 = 700 ∧
      ¬((700 : ℚ) ≤ 100) := by
  refine ⟨?_, ?_, by norm_num⟩
  · unfold calculatePricing getTariffForRequest ratesGet
      calculateDurationDays calculateBaseCost calculateAddOnCosts
    norm_num [cheapTariff, configTariff1, reqCheap, lookupDay, sumValues]
    exact ⟨_, rfl, rfl⟩
  · norm_num [calculateBaseCost, cheapTariff, configTariff1]

/-- Claim C9 as amended: the total for a multi-day request with no add-ons
is at least the 1-day base cost, for tariffs whose multi-day table prices
are each at least the (nonnegative) flat price and whose day-count keys are
positive — as in the shipped configuration. -/
theorem total_monotonic_amended_c9 (rates : List TariffRate)
    (req : PricingRequest) (t : TariffRate) (b : PricingBreakdown)
    (hres : getTariffForRequest rates req = some t)
    (hok : calculatePricing rates req = .ok b)
    (hadd : req.add_ons = [])
    (hd : 1 < calculateDurationDays req)
    (hp : 0 ≤ t.price)
    (htab : ∀ p ∈ t.multi_day_prices, t.price ≤ p.2)
    (hkeys : ∀ p ∈ t.multi_day_prices, 1 ≤ p.1) :
    calculateBaseCost t 1 ≤ b.total_cost := by
  unfold calculatePricing at hok
  rw [hres] at hok
  injection hok with hb
  subst hb
  dsimp only
  have h1 : calculateBaseCost t 1 = t.price := by simp [calculateBaseCost]
  have h2 : calculateAddOnCosts req t = [] := by
    rw [calculateAddOnCosts_eq_fold, hadd]
    rfl
  rw [h1, h2]
  have h3 : sumValues [] = 0 := rfl
  rw [h3, add_zero]
  exact base_cost_ge_price t (calculateDurationDays req) hd hp htab hkeys

/-- A 2-day request with no add-ons on the modelled config table. -/
def reqTwoDays : PricingRequest :=
  { tariff_id := some 1, duration_days := some 2 }

/-- The breakdown for `reqTwoDays`: table hit `"2": 1300`. -/
def breakdownTwoDays : PricingBreakdown :=
  { tariff_name := "тариф 'Суточно' от 3 человек"
    tariff_id := 1
    base_cost := 1300
    duration_hours := 24
    duration_days := 2
    add_on_costs := []
    total_cost := 1300
    max_people := 6
    includes_transfer := false
    includes_photoshoot := false }

/-- Witness for the amended C9 on the modelled config at 2 days. -/
theorem total_monotonic_amended_c9_witness :
    calculateBaseCost configTariff1 1 ≤ breakdownTwoDays.total_cost :=
  total_monotonic_amended_c9 configRates reqTwoDays configTariff1
    breakdownTwoDays
    (by decide)
    (by
      unfold calculatePricing getTariffForRequest ratesGet configRates
        calculateDurationDays calculateBaseCost calculateAddOnCosts
      norm_num [configTariff1, reqTwoDays, breakdownTwoDays, lookupDay,
        sumValues]
      simp)
    rfl
    (by decide)
    (by norm_num [configTariff1])
    (by
      intro p hp
      fin_cases hp <;> norm_num [configTariff1])
    (by
      intro p hp
      fin_cases hp <;> norm_num [configTariff1])

/-! ## Booking slot-filling graph
(`infrastructure/llm/graphs/booking/booking_graph.py`) -/

/-- `domain/booking/entities.py::Tariff`. -/
inductive Tariff where
  | HOURS_12 | DAY | WORKER | INCOGNITA_DAY | INCOGNITA_HOURS | DAY_FOR_COUPLE
  deriving DecidableEq, Repr

/-- Integer value of the `int`-valued enum. -/
def Tariff.val : Tariff → Int
  | .HOURS_12 => 0
  | .DAY => 1
  | .WORKER => 2
  | .INCOGNITA_DAY => 3
  | .INCOGNITA_HOURS => 4
  | .DAY_FOR_COUPLE => 5

/-- `Tariff(value)`: `none` models the raised `ValueError`. -/
def tariffOfInt (n : Int) : Option Tariff :=
  if n = 0 then some .HOURS_12
  else if n = 1 then some .DAY
  else if n = 2 then some .WORKER
  else if n = 3 then some .INCOGNITA_DAY
  else if n = 4 then some .INCOGNITA_HOURS
  else if n = 5 then some .DAY_FOR_COUPLE
  else none

/-- `booking_graph.py::BookingField`. -/
inductive BookingField where
  | TARIFF | START_DATE | START_TIME | FINISH_DATE | FINISH_TIME
  | FIRST_BEDROOM | SECOND_BEDROOM | SAUNA | PHOTOSHOOT | SECRET_ROOM
  | NUMBER_GUESTS | CONTACT | COMMENT
  deriving DecidableEq, Repr

/-- `BookingField.value`: the string key under which the field lives in the
context dict. -/
def BookingField.key : BookingField → String
  | .TARIFF => "TARIFF"
  | .START_DATE => "START_DATE"
  | .START_TIME => "START_TIME"
  | .FINISH_DATE => "FINISH_DATE"
  | .FINISH_TIME => "FINISH_TIME"
  | .FIRST_BEDROOM => "FIRST_BEDROOM"
  | .SECOND_BEDROOM => "SECOND_BEDROOM"
  | .SAUNA => "SAUNA"
  | .PHOTOSHOOT => "PHOTOSHOOT"
  | .SECRET_ROOM => "SECRET_ROOM"
  | .NUMBER_GUESTS => "NUMBER_GUESTS"
  | .CONTACT => "CONTACT"
  | .COMMENT => "COMMENT"

/-- `booking_graph.py::RATE_REQUIREMENTS`: the tariff-specific ordered
required-field lists. -/
def rateRequirements : Tariff → List BookingField
  | .DAY =>
    [.SAUNA, .PHOTOSHOOT, .START_DATE, .START_TIME, .FINISH_DATE,
      .FINISH_TIME, .NUMBER_GUESTS]
  | .DAY_FOR_COUPLE =>
    [.SAUNA, .PHOTOSHOOT, .START_DATE, .START_TIME, .FINISH_DATE,
      .FINISH_TIME]
  | .HOURS_12 =>
    [.SAUNA, .SECRET_ROOM, .SECOND_BEDROOM, .FIRST_BEDROOM, .START_DATE,
      .START_TIME, .FINISH_DATE, .FINISH_TIME, .NUMBER_GUESTS]
  | .WORKER =>
    [.SAUNA, .SECRET_ROOM, .FIRST_BEDROOM, .SECOND_BEDROOM, .START_DATE,
      .START_TIME, .FINISH_DATE, .FINISH_TIME, .NUMBER_GUESTS]
  | .INCOGNITA_HOURS =>
    [.PHOTOSHOOT, .START_DATE, .START_TIME, .FINISH_DATE, .FINISH_TIME,
      .NUMBER_GUESTS]
  | .INCOGNITA_DAY =>
    [.PHOTOSHOOT, .START_DATE, .START_TIME, .FINISH_DATE, .FINISH_TIME,
      .NUMBER_GUESTS]

/-- `booking_graph.py::BASE_REQUIRED`. -/
def baseRequired : List BookingField :=
  [.TARIFF, .CONTACT, .COMMENT]

/-- A value stored in the booking context dict.  `null` is Python `None`
(the comment field's "no comment"); a Python `bool` is kept distinct but is
looked up as the int 1/0 where the source treats it as an `int`
instance. -/
inductive CtxVal where
  | str (s : String)
  | int (n : Int)
  | bool (b : Bool)
  | tariff (t : Tariff)
  | null
  deriving DecidableEq, Repr

/-- The booking context: an insertion-ordered dict of field key → value. -/
abbrev Ctx := List (String × CtxVal)

/-- `ctx.get(k)` / `k in ctx` lookup. -/
def ctxGet (ctx : Ctx) (k : String) : Option CtxVal :=
  (ctx.find? (fun p => p.1 == k)).map (·.2)

/-- `ctx[k] = v`. -/
def ctxSet (ctx : Ctx) (k : String) (v : CtxVal) : Ctx :=
  dictSet ctx k v

/-- `ctx.update(parsed)`: assign the parsed entries in their order. -/
def ctxUpdate (ctx : Ctx) (parsed : Ctx) : Ctx :=
  parsed.foldl (fun c p => ctxSet c p.1 p.2) ctx

/-- Whitespace characters trimmed by Python `str.strip()`. -/
def isSpaceChar (c : Char) : Bool :=
  c = ' ' || c = '\t' || c = '\n' || c = '\r' || c = '\x0b' || c = '\x0c'

/-- Python `str.strip()`. -/
def strTrim (s : String) : String :=
  ⟨((s.data.dropWhile isSpaceChar).reverse.dropWhile isSpaceChar).reverse⟩

/-- `s.isdigit()` for ASCII digit strings. -/
def isDigitStr (s : String) : Bool :=
  s ≠ "" && s.data.all Char.isDigit

/-- Numeric value of a digit string (`int(s)` for non-negative input). -/
def digitsToNat : List Char → Nat → Nat
  | [], acc => acc
  | c :: cs, acc => digitsToNat cs (acc * 10 + (c.toNat - '0'.toNat))

/-- `int(s)` on an all-digit string. -/
def strToNat (s : String) : Nat :=
  digitsToNat s.data 0

/-- `core/utils/string_helper.py::parse_yes_no`. -/
def parseYesNo (s : String) : Option Bool :=
  let t := strTrim (lowerStr s)
  if ["да", "ага", "ok", "ок", "yes", "y", "true", "1"].contains t then
    some true
  else if ["нет", "не", "no", "n", "false", "0"].contains t then some false
  else none

/-- Hour pattern `([01]?\d|2[0-3])` as a full match. -/
def isHourChars : List Char → Bool
  | [c] => c.isDigit
  | [c0, c1] =>
    ((c0 = '0' || c0 = '1') && c1.isDigit) ||
      (c0 = '2' && ('0' ≤ c1 && c1 ≤ '3'))
  | _ => false

/-- `core/utils/datetime_helper.py::is_time`: a bare hour, or
`([01]\d|2[0-3]):[0-5]\d`. -/
def isTime (s : String) : Bool :=
  let c := (strTrim s).data
  isHourChars c ||
    match c with
    | [c0, c1, c2, c3, c4] =>
      (((c0 = '0' || c0 = '1') && c1.isDigit) ||
          (c0 = '2' && ('0' ≤ c1 && c1 ≤ '3'))) &&
        c2 = ':' && ('0' ≤ c3 && c3 ≤ '5') && c4.isDigit
    | _ => false

/-- Zero-padded two-digit rendering (`f"{n:02d}"`). -/
def pad2 (n : Nat) : String :=
  if n < 10 then "0" ++ toString n else toString n

/-- `core/utils/datetime_helper.py::norm_time`. -/
def normTime (s : String) : String :=
  let t := strTrim s
  if t.data.contains ':' then t
  else pad2 (strToNat t) ++ ":00"

/-- `s.replace("/", ".").replace("-", ".")` (single-character classes). -/
def slashesToDots (s : String) : String :=
  ⟨s.data.map (fun c => if c = '/' || c = '-' then '.' else c)⟩

/-- Split a character list on a separator character. -/
def splitOnChar (sep : Char) : List Char → List (List Char)
  | [] => [[]]
  | c :: rest =>
    let r := splitOnChar sep rest
    if c = sep then [] :: r
    else
      match r with
      | h :: t => (c :: h) :: t
      | [] => [[c]]

/-- `datetime.strptime(s, "%d.%m.%Y")`: day and month of one or two digits,
a four-digit year, and a valid calendar date; `none` models the raised
`ValueError`. -/
def strptimeDMY (s : String) : Option (Nat × Nat × Int) :=
  match splitOnChar '.' s.data with
  | [ds, ms, ys] =>
    if (1 ≤ ds.length && ds.length ≤ 2 && ds.all Char.isDigit) &&
        (1 ≤ ms.length && ms.length ≤ 2 && ms.all Char.isDigit) &&
        (ys.length == 4 && ys.all Char.isDigit) then
      let d := digitsToNat ds 0
      let m := digitsToNat ms 0
      let y : Int := (digitsToNat ys 0 : Int)
      if 1 ≤ d && 1 ≤ m && m ≤ 12 && 1 ≤ y && d ≤ daysInMonth y m then
        some (d, m, y)
      else none
    else none
  | _ => none

/-- The `DD.MM` → `DD.MM.YYYY` year completion shared by `is_date` and
`norm_date`. -/
def completeYear (nowYear : Int) (s : String) : String :=
  if (splitOnChar '.' s.data).length == 2 then s ++ "." ++ toString nowYear
  else s

/-- `core/utils/datetime_helper.py::is_date`. -/
def isDate (nowYear : Int) (s : String) : Bool :=
  (strptimeDMY (completeYear nowYear (slashesToDots s))).isSome

/-- `core/utils/datetime_helper.py::norm_date`, `none` for the unreachable
parse failure (callers guard with `is_date`). -/
def normDate (nowYear : Int) (s : String) : Option String :=
  (strptimeDMY (completeYear nowYear (slashesToDots s))).map
    (fun dmy => pad2 dmy.1 ++ "." ++ pad2 dmy.2.1 ++ "." ++ toString dmy.2.2)

/-- The genitive Russian month names of
`extract_date_from_natural_language`, in dict insertion order. -/
def naturalMonths : List (String × Nat) :=
  [("января", 1), ("февраля", 2), ("марта", 3), ("апреля", 4), ("мая", 5),
    ("июня", 6), ("июля", 7), ("августа", 8), ("сентября", 9),
    ("октября", 10), ("ноября", 11), ("декабря", 12)]

/-- Match `(\d{1,2})\s*<month>` anchored at the head of the text: greedy
two digits, then one, then fail, as the regex engine backtracks. -/
def matchDayMonthAt (name : List Char) : List Char → Option Nat
  | c1 :: c2 :: rest =>
    if c1.isDigit && c2.isDigit then
      if isPrefixChars name (rest.dropWhile isSpaceChar) then
        some (digitsToNat [c1, c2] 0)
      else if isPrefixChars name ((c2 :: rest).dropWhile isSpaceChar) then
        some (digitsToNat [c1] 0)
      else none
    else if c1.isDigit then
      if isPrefixChars name ((c2 :: rest).dropWhile isSpaceChar) then
        some (digitsToNat [c1] 0)
      else none
    else none
  | [c1] =>
    if c1.isDigit && isPrefixChars name [] then some (digitsToNat [c1] 0)
    else none
  | [] => none

/-- `re.search(r'(\d{1,2})\s*<month>', text)`: leftmost match. -/
def searchDayBefore (name : List Char) : List Char → Option Nat
  | [] => none
  | c :: rest =>
    match matchDayMonthAt name (c :: rest) with
    | some d => some d
    | none => searchDayBefore name rest

/-- `core/utils/datetime_helper.py::extract_date_from_natural_language`:
for each Russian month name in order, find a day number right before it
and return `DD.MM.YYYY` with the current year when the date is valid. -/
def extractDateNatural (nowYear : Int) (text : String) : Option String :=
  let low := lowerStr text
  naturalMonths.foldl
    (fun acc nm =>
      match acc with
      | some r => some r
      | none =>
        if substr nm.1 low then
          match searchDayBefore nm.1.data low.data with
          | some day =>
            if 1 ≤ day && day ≤ daysInMonth nowYear nm.2 then
              some (pad2 day ++ "." ++ pad2 nm.2 ++ "." ++ toString nowYear)
            else none
          | none => none
        else none)
    none

/-- `booking_graph.py::parse_tariff_from_text`: numeric value first (an
invalid number falls through to keywords), then the keyword ladder. -/
def parseTariffFromText (text : String) : Option Tariff :=
  let low := strTrim (lowerStr text)
  let keyword : Option Tariff :=
    if substr "12" low && !substr "инкогнито" low then some .HOURS_12
    else if substr "инкогнито" low && substr "12" low then
      some .INCOGNITA_HOURS
    else if substr "инкогнито" low &&
        (substr "сут" low || substr "24" low || substr "день" low) then
      some .INCOGNITA_DAY
    else if substr "суточно" low &&
        (substr "пар" low || substr "два" low || substr "2" low) then
      some .DAY_FOR_COUPLE
    else if substr "суточно" low &&
        (substr "3" low || substr "трех" low || substr "трёх" low ||
          substr "от 3" low) then
      some .DAY
    else if substr "рабочий" low || substr "работа" low then some .WORKER
    else if substr "сут" low || substr "24" low || substr "день" low then
      some .DAY_FOR_COUPLE
    else none
  if isDigitStr low then
    match tariffOfInt (strToNat low : Int) with
    | some t => some t
    | none => keyword
  else keyword

/-- `booking_graph.py::_convert_tariff_string_to_enum`: the exact mapping,
then the fuzzy keyword fallback. -/
def convertTariffStringToEnum (s : String) : Option Tariff :=
  if s = "12 часов" then some .HOURS_12
  else if s = "суточно от 3 человек" then some .DAY
  else if s = "сутки" then some .DAY
  else if s = "сутки от 3" then some .DAY
  else if s = "сутки для двоих" then some .DAY_FOR_COUPLE
  else if s = "сутночно для двоих" then some .DAY_FOR_COUPLE
  else if s = "рабочий" then some .WORKER
  else if s = "инкогнито день" then some .INCOGNITA_DAY
  else if s = "инкогнито 12" then some .INCOGNITA_HOURS
  else if s = "абонемент 3" then some .DAY
  else if s = "абонемент 5" then some .DAY
  else if s = "абонемент 8" then some .DAY
  else
    let low := lowerStr s
    if substr "12" low && (substr "час" low || substr "полсуток" low) then
      some .HOURS_12
    else if substr "сутки" low || substr "день" low || substr "суточн" low then
      if substr "двоих" low || substr "2" low || substr "пара" low ||
          substr "couple" low then
        some .DAY_FOR_COUPLE
      else some .DAY
    else if substr "рабоч" low || substr "work" low then some .WORKER
    else if substr "инкогнит" low then
      if substr "12" low || substr "час" low then some .INCOGNITA_HOURS
      else some .INCOGNITA_DAY
    else none

/-- The tariff-value conversion shared by `_first_missing` and
`_get_tariff_enum_from_context`: strings go through
`_convert_tariff_string_to_enum` then a numeric fallback; ints through
`Tariff(value)`; a Python bool is an `int` instance and is looked up as
1/0; a stored enum stays itself. -/
def tariffEnumOfVal : CtxVal → Option Tariff
  | .str s =>
    match convertTariffStringToEnum s with
    | some t => some t
    | none => if isDigitStr s then tariffOfInt (strToNat s : Int) else none
  | .int n => tariffOfInt n
  | .bool b => tariffOfInt (if b then 1 else 0)
  | .tariff t => some t
  | .null => none

/-- The per-field missing test of `_first_missing`'s loop: a field is
missing when its key is absent, or — except for COMMENT, whose stored
`None` means "no comment" — when its value is `None` or the empty
string. -/
def fieldMissingIn (ctx : Ctx) (f : BookingField) : Bool :=
  match ctxGet ctx f.key with
  | none => true
  | some v => f ≠ BookingField.COMMENT && (v = .null || v = .str "")

/-- `booking_graph.py::_first_missing`. -/
def firstMissing (ctx : Ctx) : Option BookingField :=
  match ctxGet ctx "TARIFF" with
  | none => some .TARIFF
  | some v =>
    if v = .null then some .TARIFF
    else
      let required :=
        match tariffEnumOfVal v with
        | some t => rateRequirements t ++ baseRequired
        | none => baseRequired
      required.find? (fieldMissingIn ctx)

/-- `booking_graph.py::_handle_summary_mode_input`: with the summary shown,
anything that is neither the confirmation keyword nor a standard "no"
answer is replaced by the empty string. -/
def handleSummaryModeInput (text : String) (wasDone : Bool) : String :=
  if !(wasDone && text ≠ "") then text
  else if lowerStr text = "подтверждаю" then text
  else if ["нет", "no", "-", "не надо", "не нужно", "none"].contains
      (lowerStr text) then
    text
  else ""

/-- `booking_graph.py::_handle_bedroom_logic`: declining the white/second
bedroom auto-selects the green/first one. -/
def handleBedroomLogic (ctx : Ctx) (field : BookingField) (value : Bool) :
    Ctx :=
  if field = .SECOND_BEDROOM then
    let ctx1 := ctxSet ctx "SECOND_BEDROOM" (.bool value)
    if !value then ctxSet ctx1 "FIRST_BEDROOM" (.bool true) else ctx1
  else if field = .FIRST_BEDROOM then
    ctxSet ctx "FIRST_BEDROOM" (.bool value)
  else ctx

/-- `booking_graph.py::_parse_field_value`. -/
def parseFieldValue (now : DT) (ctx : Ctx) (field : BookingField)
    (text : String) : Ctx :=
  match field with
  | .TARIFF =>
    match parseTariffFromText text with
    | some t => ctxSet ctx "TARIFF" (.tariff t)
    | none => ctx
  | .FIRST_BEDROOM | .SECOND_BEDROOM | .SAUNA | .PHOTOSHOOT | .SECRET_ROOM =>
    match parseYesNo text with
    | some v =>
      if field = .FIRST_BEDROOM ∨ field = .SECOND_BEDROOM then
        handleBedroomLogic ctx field v
      else ctxSet ctx field.key (.bool v)
    | none => ctx
  | .START_DATE | .FINISH_DATE =>
    if isDate now.year text then
      match normDate now.year text with
      | some d => ctxSet ctx field.key (.str d)
      | none => ctx
    else
      match extractDateNatural now.year text with
      | some d => ctxSet ctx field.key (.str d)
      | none => ctx
  | .START_TIME | .FINISH_TIME =>
    if isTime text then ctxSet ctx field.key (.str (normTime text)) else ctx
  | .NUMBER_GUESTS =>
    if isDigitStr text && decide (0 < strToNat text) then
      ctxSet ctx field.key (.int (strToNat text : Int))
    else ctx
  | .CONTACT =>
    if isPrefixChars ['@'] text.data || isPrefixChars ['+'] text.data then
      ctxSet ctx field.key (.str text)
    else ctx
  | .COMMENT =>
    ctxSet ctx "COMMENT"
      (if ["нет", "no", "-"].contains (lowerStr text) then .null
       else .str text)

/-- `booking_graph.py::_process_user_text`, with the LLM extractor's
result (or its failure, `none`) supplied as the `parsed` oracle. -/
def processUserText (parsed : Option Ctx) (now : DT) (ctx : Ctx)
    (text : String) : Ctx :=
  let ctx1 :=
    match parsed with
    | some p => ctxUpdate ctx p
    | none => ctx
  match firstMissing ctx1 with
  | some f => parseFieldValue now ctx1 f text
  | none => ctx1

/-- `booking_graph.py::_get_tariff_enum_from_context`. -/
def getTariffEnumFromContext (ctx : Ctx) : Option Tariff :=
  match ctxGet ctx "TARIFF" with
  | none => none
  | some v => if v = .null then none else tariffEnumOfVal v

/-- `booking_graph.py::QUESTIONS`. -/
def staticQuestion : BookingField → String
  | .TARIFF => "Выберите тариф:\n\n👥 `1` - Суточно от 3-ех человек (от 3 гостей)\n💑 `5` - Суточно для пар (для двоих)\n⏰ `0` - 12 часов (дневное бронирование)\n💼 `2` - Рабочий (будни Пн-Чт)\n🕶️ `4` - Инкогнито 12 часов (VIP на 12ч)\n🕶️ `3` - Инкогнито на сутки (VIP посуточно)"
  | .START_DATE => "Дата заезда? Укажите в формате `ДД.ММ` или `ДД.ММ.ГГГГ`"
  | .START_TIME => "Время заезда? Укажите в формате `ЧЧ:ММ`"
  | .FINISH_DATE => "Дата выезда? Укажите в формате `ДД.ММ` или `ДД.ММ.ГГГГ`"
  | .FINISH_TIME => "Время выезда? Укажите в формате `ЧЧ:ММ`"
  | .FIRST_BEDROOM => "🟢 Зеленая спальня (основная спальня с большой кроватью)? (`да`/`нет`)"
  | .SECOND_BEDROOM => "⚪ Белая спальня (дополнительная спальня)? (`да`/`нет`)"
  | .SAUNA => "🧖‍♀️ Добавить сауну к бронированию? (`да`/`нет`)"
  | .PHOTOSHOOT => "📸 Нужна фотосессия? (`да`/`нет`)"
  | .SECRET_ROOM => "🚪 Добавить секретную комнату? (`да`/`нет`)"
  | .NUMBER_GUESTS => "Количество гостей? Укажите число"
  | .CONTACT => "Контакт для связи: укажите `@username` или телефон с `+`"
  | .COMMENT => "Дополнительные пожелания или комментарий к брони? (напишите `нет` если нет комментариев)"

/-- `booking_graph.py::get_dynamic_question`, with the rendering of a
`Decimal` price into text supplied as `showQ`. -/
def getDynamicQuestion (rates : List TariffRate) (showQ : ℚ → String)
    (field : BookingField) (tariffEnum : Option Tariff) : String :=
  if !([BookingField.SAUNA, .SECRET_ROOM, .SECOND_BEDROOM, .FIRST_BEDROOM,
      .PHOTOSHOOT].contains field) then
    staticQuestion field
  else
    match tariffEnum with
    | none => staticQuestion field
    | some te =>
      match ratesGet rates te.val with
      | none => staticQuestion field
      | some tr =>
        match field with
        | .SAUNA =>
          if 0 < tr.sauna_price then
            "🧖‍♀️ Добавить сауну к бронированию +" ++ showQ tr.sauna_price ++
              " бел.руб? (`да`/`нет`)"
          else "🧖‍♀️ Добавить сауну к бронированию (включена в тариф)? (`да`/`нет`)"
        | .SECRET_ROOM =>
          if 0 < tr.secret_room_price then
            "🚪 Добавить секретную комнату +" ++ showQ tr.secret_room_price ++
              " бел.руб? (`да`/`нет`)"
          else "🚪 Добавить секретную комнату (включена в тариф)? (`да`/`нет`)"
        | .SECOND_BEDROOM =>
          if 0 < tr.second_bedroom_price then
            "⚪ Белая спальня (дополнительная спальня) +" ++
              showQ tr.second_bedroom_price ++ " бел.руб? (`да`/`нет`)"
          else "⚪ Белая спальня (дополнительная спальня) - включена в тариф? (`да`/`нет`)"
        | .FIRST_BEDROOM =>
          "🟢 Зеленая спальня (основная спальня) - включена в тариф? (`да`/`нет`)"
        | .PHOTOSHOOT =>
          if 0 < tr.photoshoot_price then
            "📸 Нужна фотосессия +" ++ showQ tr.photoshoot_price ++
              " бел.руб? (`да`/`нет`)"
          else "📸 Нужна фотосессия (включена в тариф)? (`да`/`нет`)"
        | _ => staticQuestion field

/-- The partial state dict a booking-graph node returns: `text` and
`last_asked` stay absent (`none`) when the node does not set them. -/
structure BookingStepResult where
  context : Ctx
  text : Option String
  reply : String
  done : Bool
  await_input : Bool
  last_asked : Option String
  active_subgraph : String
  deriving Repr, DecidableEq

/-- The slice of the incoming graph state `ask_or_fill` reads. -/
structure BookingStateIn where
  context : Ctx
  text : Option String
  done : Bool
  deriving Repr

/-- `booking_graph.py::_ask_for_missing_field`. -/
def askForMissingField (rates : List TariffRate) (showQ : ℚ → String)
    (ctx : Ctx) (field : BookingField) : BookingStepResult :=
  { context := ctx
    text := some ""
    reply := getDynamicQuestion rates showQ field (getTariffEnumFromContext ctx)
    done := false
    await_input := false
    last_asked := some field.key
    active_subgraph := "booking" }

/-- `booking_graph.py::get_rate_display_name`, applied to the raw context
value the summary passes it (an int or bool key equal to a `Tariff` member
hits that member's entry; anything else falls back to `str(tariff)`,
rendered by `showVal`). -/
def getRateDisplayName (showVal : CtxVal → String) (v : CtxVal) : String :=
  let byEnum : Option Tariff :=
    match v with
    | .tariff t => some t
    | .int n => tariffOfInt n
    | .bool b => tariffOfInt (if b then 1 else 0)
    | _ => none
  match byEnum with
  | some .DAY => "СУТОЧНО ОТ 3 ЛЮДЕЙ"
  | some .DAY_FOR_COUPLE => "СУТОЧНО ДЛЯ ПАР"
  | some .HOURS_12 => "12 ЧАСОВ"
  | some .WORKER => "РАБОЧИЙ (Пн-Чт)"
  | some .INCOGNITA_HOURS => "ИНКОГНИТО 12 ЧАСОВ"
  | some .INCOGNITA_DAY => "ИНКОГНИТО НА СУТКИ"
  | none => showVal v

/-- A context value rendered the way the summary f-string would; keys are
present when the summary runs (no field is missing). -/
def ctxShow (showVal : CtxVal → String) (ctx : Ctx) (k : String) : String :=
  showVal ((ctxGet ctx k).getD .null)

/-- Python falsiness of a context value (`x or '—'`). -/
def isFalsyVal : CtxVal → Bool
  | .null => true
  | .str s => s = ""
  | .int n => n = 0
  | .bool b => !b
  | .tariff _ => false

/-- `booking_graph.py::_format_booking_summary` together with
`_add_optional_fields_to_summary`. -/
def formatBookingSummary (showVal : CtxVal → String) (ctx : Ctx)
    (tariffVal : CtxVal) (required : List BookingField) : String :=
  let lines0 := ["📋 Резюме заявки:",
    "Тариф: " ++ getRateDisplayName showVal tariffVal]
  let lines1 :=
    if required.contains .START_DATE then
      lines0 ++
        ["Заезд: " ++ ctxShow showVal ctx "START_DATE" ++ " " ++
            ctxShow showVal ctx "START_TIME",
          "Выезд: " ++ ctxShow showVal ctx "FINISH_DATE" ++ " " ++
            ctxShow showVal ctx "FINISH_TIME"]
    else lines0
  let optional :=
    [(BookingField.FIRST_BEDROOM, "🟢 Зеленая спальня"),
      (BookingField.SECOND_BEDROOM, "⚪ Белая спальня"),
      (BookingField.SAUNA, "🧖‍♀️ Сауна"),
      (BookingField.PHOTOSHOOT, "📸 Фотосъёмка"),
      (BookingField.SECRET_ROOM, "🚪 Секретная комната")]
  let lines2 := lines1 ++ (optional.filterMap (fun fl =>
    if required.contains fl.1 then
      some (fl.2 ++ ": " ++
        (if isFalsyVal ((ctxGet ctx fl.1.key).getD .null) then "нет"
         else "да"))
    else none))
  let lines3 :=
    if required.contains .NUMBER_GUESTS then
      lines2 ++ ["👥 Гостей: " ++ ctxShow showVal ctx "NUMBER_GUESTS"]
    else lines2
  let lines4 := lines3 ++
    ["Контакт: " ++ ctxShow showVal ctx "CONTACT",
      "Комментарий: " ++
        (if isFalsyVal ((ctxGet ctx "COMMENT").getD .null) then "—"
         else ctxShow showVal ctx "COMMENT"),
      "Напиши `подтверждаю` или пришли правки текстом."]
  String.intercalate "\n" lines4

/-- `booking_graph.py::_generate_booking_summary`. -/
def generateBookingSummary (showVal : CtxVal → String) (ctx : Ctx) :
    BookingStepResult :=
  let tariffVal := (ctxGet ctx "TARIFF").getD .null
  let required :=
    (match getTariffEnumFromContext ctx with
      | some te => rateRequirements te
      | none => []) ++ baseRequired
  { context := ctx
    text := none
    reply := formatBookingSummary showVal ctx tariffVal required
    done := true
    await_input := true
    last_asked := none
    active_subgraph := "booking" }

/-- `booking_graph.py::ask_or_fill`: the main booking step.  `parsed` is
the LLM extractor's output for the (non-empty) text, `none` when the call
fails or returns nothing; `showQ`/`showVal` render prices and context
values into the reply strings. -/
def askOrFill (rates : List TariffRate) (showQ : ℚ → String)
    (showVal : CtxVal → String) (parsed : Option Ctx) (now : DT)
    (state : BookingStateIn) : BookingStepResult :=
  let ctx := state.context
  let text0 := strTrim (state.text.getD "")
  let wasDone := state.done
  let text1 := handleSummaryModeInput text0 wasDone
  let ctx1 := if text1 ≠ "" then processUserText parsed now ctx text1 else ctx
  match firstMissing ctx1 with
  | some f => askForMissingField rates showQ ctx1 f
  | none => generateBookingSummary showVal ctx1

/-! ### Claim C3: the bedroom rule -/

/-- Pointwise-equal predicates find the same element. -/
theorem find?_ext {α : Type} (p q : α → Bool) (h : ∀ a, p a = q a) :
    ∀ l : List α, l.find? p = l.find? q := by
  intro l
  induction l with
  | nil => rfl
  | cons a t ih =>
    simp only [List.find?, h a, ih]

/-- Dict assignment then lookup: the written key reads back the new value,
every other key is untouched. -/
theorem ctxGet_dictSet {β : Type} (m : List (String × β)) (k k1 : String)
    (v : β) :
    ((dictSet m k v).find? (fun p => p.1 == k1)).map (·.2) =
      if k1 = k then some v
      else (m.find? (fun p => p.1 == k1)).map (·.2) := by
  unfold dictSet
  by_cases hc : m.any (fun p => p.1 == k) = true
  · rw [if_pos hc, List.find?_map]
    by_cases hk1 : k1 = k
    · subst hk1
      rw [if_pos rfl]
      have hpt : ∀ q : String × β,
          ((fun p : String × β => p.1 == k1) ∘
            (fun p => if p.1 == k1 then (k1, v) else p)) q =
            (fun p : String × β => p.1 == k1) q := by
        intro q
        by_cases hq : q.1 = k1
        · simp [hq]
        · simp [beq_false_of_ne hq, hq]
      rw [find?_ext _ _ hpt]
      obtain ⟨x, hx, hpx⟩ := List.any_eq_true.mp hc
      have hsome : (m.find? (fun p => p.1 == k1)).isSome :=
        List.find?_isSome.mpr ⟨x, hx, hpx⟩
      obtain ⟨q, hq⟩ := Option.isSome_iff_exists.mp hsome
      rw [hq]
      have hqk : q.1 = k1 := by
        have := List.find?_some hq
        simpa using this
      simp [hqk]
    · rw [if_neg hk1]
      have hpt : ∀ q : String × β,
          ((fun p : String × β => p.1 == k1) ∘
            (fun p => if p.1 == k then (k, v) else p)) q =
            (fun p : String × β => p.1 == k1) q := by
        intro q
        by_cases hq : q.1 = k
        · simp [hq, beq_false_of_ne (Ne.symm (fun h => hk1 h.symm)),
            beq_false_of_ne (fun h : k = k1 => hk1 h.symm)]
        · simp [hq]
      rw [find?_ext _ _ hpt]
      cases hf : m.find? (fun p => p.1 == k1) with
      | none => rfl
      | some q =>
        have hqk : q.1 = k1 := by
          have := List.find?_some hf
          simpa using this
        have hqne : ¬(q.1 = k) := by rw [hqk]; exact hk1
        simp [hqne]
  · rw [if_neg hc, List.find?_append]
    have hnone : m.find? (fun p => p.1 == k) = none := by
      rw [List.find?_eq_none]
      intro x hx hpx
      exact hc (List.any_eq_true.mpr ⟨x, hx, hpx⟩)
    by_cases hk1 : k1 = k
    · subst hk1
      rw [if_pos rfl, hnone]
      simp [List.find?]
    · rw [if_neg hk1]
      have hsing : List.find? (fun p : String × β => p.1 == k1) [(k, v)] =
          none := by
        simp [List.find?, beq_false_of_ne (fun h : k = k1 => hk1 h.symm)]
      rw [hsing]
      cases m.find? (fun p : String × β => p.1 == k1) <;> rfl

/-- Setting a key makes it readable. -/
theorem ctxGet_ctxSet_same (m : Ctx) (k : String) (v : CtxVal) :
    ctxGet (ctxSet m k v) k = some v := by
  show ((dictSet m k v).find? (fun p => p.1 == k)).map (·.2) = some v
  rw [ctxGet_dictSet, if_pos rfl]

/-- Setting one key leaves the others unchanged. -/
theorem ctxGet_ctxSet_other (m : Ctx) (k k1 : String) (v : CtxVal)
    (hne : k1 ≠ k) : ctxGet (ctxSet m k v) k1 = ctxGet m k1 := by
  show ((dictSet m k v).find? (fun p => p.1 == k1)).map (·.2) = ctxGet m k1
  rw [ctxGet_dictSet, if_neg hne]
  rfl

/-- `firstMissing` can only name a field that its missing test flags (or
the tariff guard's own field). -/
theorem firstMissing_only_missing (ctx : Ctx) (f : BookingField)
    (hf : firstMissing ctx = some f) :
    f = .TARIFF ∨ fieldMissingIn ctx f = true := by
  unfold firstMissing at hf
  cases hg : ctxGet ctx "TARIFF" with
  | none =>
    rw [hg] at hf
    exact Or.inl (Option.some.inj hf).symm
  | some v =>
    rw [hg] at hf
    dsimp only at hf
    by_cases hn : v = .null
    · rw [if_pos hn] at hf
      exact Or.inl (Option.some.inj hf).symm
    · rw [if_neg hn] at hf
      exact Or.inr (List.find?_some hf)

/-- Counterexample context: HOURS_12 booking where the white/second bedroom
was accepted; the green/first bedroom has not been asked yet. -/
def ctxSecondYes : Ctx :=
  [("TARIFF", CtxVal.tariff .HOURS_12), ("SAUNA", CtxVal.bool true),
    ("SECRET_ROOM", CtxVal.bool true), ("SECOND_BEDROOM", CtxVal.bool true)]

/-- Counterexample to the second half of claim C3: after the second/white
bedroom is answered *yes*, the first/green bedroom IS the next missing
field, and the booking step does ask for it. -/
theorem bedroom_claim_c3_false :
    firstMissing ctxSecondYes = some .FIRST_BEDROOM ∧
      (askOrFill [] (fun _ => "") (fun _ => "") none
          ⟨2025, 3, 15, 12, 0, 0, 0⟩
          ⟨ctxSecondYes, some "", false⟩).last_asked =
        some "FIRST_BEDROOM" :=
  ⟨rfl, rfl⟩

/-- Claim C3 as amended: declining the second/white bedroom sets the
first/green bedroom to `true` in the same step, after which it is never the
first missing field; accepting the second/white bedroom leaves the
first/green bedroom untouched (so, contrary to the claim, it is still
asked). -/
theorem bedroom_rule_amended_c3 (ctx : Ctx) :
    ctxGet (handleBedroomLogic ctx .SECOND_BEDROOM false) "FIRST_BEDROOM" =
        some (.bool true) ∧
      firstMissing (handleBedroomLogic ctx .SECOND_BEDROOM false) ≠
        some .FIRST_BEDROOM ∧
      ctxGet (handleBedroomLogic ctx .SECOND_BEDROOM true) "FIRST_BEDROOM" =
        ctxGet ctx "FIRST_BEDROOM" := by
  have hdecl : handleBedroomLogic ctx .SECOND_BEDROOM false =
      ctxSet (ctxSet ctx "SECOND_BEDROOM" (.bool false)) "FIRST_BEDROOM"
        (.bool true) := rfl
  have hget : ctxGet (handleBedroomLogic ctx .SECOND_BEDROOM false)
      "FIRST_BEDROOM" = some (.bool true) := by
    rw [hdecl]
    exact ctxGet_ctxSet_same _ _ _
  refine ⟨hget, ?_, ?_⟩
  · intro hfm
    rcases firstMissing_only_missing _ _ hfm with h | h
    · cases h
    · rw [fieldMissingIn, show BookingField.FIRST_BEDROOM.key =
        "FIRST_BEDROOM" from rfl, hget] at h
      simp at h
  · have haccept : handleBedroomLogic ctx .SECOND_BEDROOM true =
        ctxSet ctx "SECOND_BEDROOM" (.bool true) := rfl
    rw [haccept]
    exact ctxGet_ctxSet_other _ _ _ _ (by decide)

/-! ### Claim C6: first missing field -/

/-- Claim C6: for a context whose tariff value resolves to a known enum,
`_first_missing` returns the first field of the ordered list — tariff
first, then the tariff-specific fields, then contact and comment — that is
absent or empty (with comment's stored `None` counting as present). -/
theorem first_missing_c6 (ctx : Ctx) (v : CtxVal) (t : Tariff)
    (hget : ctxGet ctx "TARIFF" = some v)
    (hres : tariffEnumOfVal v = some t) :
    firstMissing ctx =
      (BookingField.TARIFF ::
        (rateRequirements t ++ [BookingField.CONTACT, BookingField.COMMENT])).find?
        (fieldMissingIn ctx) := by
  have hnn : v ≠ .null := by
    rintro rfl
    simp [tariffEnumOfVal] at hres
  have hne : v ≠ .str "" := by
    rintro rfl
    rw [show tariffEnumOfVal (CtxVal.str "") = none from by decide] at hres
    cases hres
  have hT : fieldMissingIn ctx .TARIFF = false := by
    unfold fieldMissingIn
    rw [show BookingField.TARIFF.key = "TARIFF" from rfl, hget]
    simp [hnn, hne]
  unfold firstMissing
  rw [hget]
  dsimp only
  rw [if_neg hnn, hres]
  dsimp only
  rw [show baseRequired =
    [BookingField.TARIFF, BookingField.CONTACT, BookingField.COMMENT] from rfl]
  rw [List.find?_cons_of_neg _ (by simp [hT])]
  induction rateRequirements t with
  | nil =>
    simp only [List.nil_append]
    rw [List.find?_cons_of_neg _ (by simp [hT])]
  | cons f rest ih =>
    simp only [List.cons_append, List.find?]
    cases hmf : fieldMissingIn ctx f with
    | true => rfl
    | false => exact ih

/-- A context for the C6 witness: tariff chosen, sauna answered. -/
def ctxC6 : Ctx :=
  [("TARIFF", CtxVal.tariff .HOURS_12), ("SAUNA", CtxVal.bool true)]

/-- Witness for C6 at a concrete HOURS_12 context. -/
theorem first_missing_c6_witness :
    firstMissing ctxC6 =
      (BookingField.TARIFF ::
        (rateRequirements .HOURS_12 ++
          [BookingField.CONTACT, BookingField.COMMENT])).find?
        (fieldMissingIn ctxC6) :=
  first_missing_c6 ctxC6 (CtxVal.tariff .HOURS_12) .HOURS_12 rfl rfl

/-! ### Claim C10: the booking step never deletes context keys -/

theorem ctxSet_keys (m : Ctx) (k1 : String) (v : CtxVal) (k : String)
    (hk : k ∈ m.map Prod.fst) : k ∈ (ctxSet m k1 v).map Prod.fst :=
  (mem_dictSet_fst m k1 v k).mpr (Or.inl hk)

theorem ctxUpdate_keys (parsed : Ctx) :
    ∀ (ctx : Ctx) (k : String), k ∈ ctx.map Prod.fst →
      k ∈ (ctxUpdate ctx parsed).map Prod.fst := by
  induction parsed with
  | nil => intro ctx k hk; exact hk
  | cons p rest ih =>
    intro ctx k hk
    exact ih (ctxSet ctx p.1 p.2) k (ctxSet_keys ctx p.1 p.2 k hk)

theorem handleBedroomLogic_keys (ctx : Ctx) (f : BookingField) (v : Bool)
    (k : String) (hk : k ∈ ctx.map Prod.fst) :
    k ∈ (handleBedroomLogic ctx f v).map Prod.fst := by
  unfold handleBedroomLogic
  split
  · dsimp only
    split
    · exact ctxSet_keys _ _ _ _ (ctxSet_keys _ _ _ _ hk)
    · exact ctxSet_keys _ _ _ _ hk
  · split
    · exact ctxSet_keys _ _ _ _ hk
    · exact hk

theorem parseFieldValue_keys (now : DT) (ctx : Ctx) (field : BookingField)
    (text : String) (k : String) (hk : k ∈ ctx.map Prod.fst) :
    k ∈ (parseFieldValue now ctx field text).map Prod.fst := by
  unfold parseFieldValue
  cases field <;> dsimp only <;> (repeat' split) <;>
    first
      | exact hk
      | exact ctxSet_keys _ _ _ _ hk
      | exact handleBedroomLogic_keys _ _ _ _ hk

theorem processUserText_keys (parsed : Option Ctx) (now : DT) (ctx : Ctx)
    (text : String) (k : String) (hk : k ∈ ctx.map Prod.fst) :
    k ∈ (processUserText parsed now ctx text).map Prod.fst := by
  unfold processUserText
  have h1 : k ∈ (match parsed with
      | some p => ctxUpdate ctx p
      | none => ctx).map Prod.fst := by
    cases parsed with
    | none => exact hk
    | some p => exact ctxUpdate_keys p ctx k hk
  dsimp only
  split
  · exact parseFieldValue_keys _ _ _ _ _ h1
  · exact h1

/-- Claim C10: every key present in the incoming booking context is still
present after `ask_or_fill`, whatever the LLM extractor returned and
whatever the text was — slots are only added or overwritten, never
deleted. -/
theorem ask_or_fill_keys_c10 (rates : List TariffRate) (showQ : ℚ → String)
    (showVal : CtxVal → String) (parsed : Option Ctx) (now : DT)
    (state : BookingStateIn) (k : String)
    (hk : k ∈ state.context.map Prod.fst) :
    k ∈ (askOrFill rates showQ showVal parsed now state).context.map
      Prod.fst := by
  unfold askOrFill
  dsimp only
  have h1 : k ∈ (if
      handleSummaryModeInput (strTrim (state.text.getD "")) state.done ≠ ""
      then processUserText parsed now state.context
        (handleSummaryModeInput (strTrim (state.text.getD "")) state.done)
      else state.context).map Prod.fst := by
    split
    · exact processUserText_keys _ _ _ _ _ hk
    · exact hk
  split
  · exact h1
  · exact h1

/-- Witness for C10: a concrete state, extractor output and key. -/
theorem ask_or_fill_keys_c10_witness :
    "TARIFF" ∈ (askOrFill [] (fun _ => "") (fun _ => "")
        (some [("SAUNA", CtxVal.bool true)]) ⟨2025, 3, 15, 12, 0, 0, 0⟩
        ⟨[("TARIFF", CtxVal.tariff .DAY)], some "да", false⟩).context.map
      Prod.fst :=
  ask_or_fill_keys_c10 [] (fun _ => "") (fun _ => "")
    (some [("SAUNA", CtxVal.bool true)]) ⟨2025, 3, 15, 12, 0, 0, 0⟩
    ⟨[("TARIFF", CtxVal.tariff .DAY)], some "да", false⟩ "TARIFF"
    (by simp)

/-! ### Claim C2: correction text after the summary -/

/-- A fully collected DAY_FOR_COUPLE booking context. -/
def ctxFullCouple : Ctx :=
  [("TARIFF", CtxVal.tariff .DAY_FOR_COUPLE), ("SAUNA", CtxVal.bool false),
    ("PHOTOSHOOT", CtxVal.bool false),
    ("START_DATE", CtxVal.str "20.03.2026"),
    ("START_TIME", CtxVal.str "14:00"),
    ("FINISH_DATE", CtxVal.str "21.03.2026"),
    ("FINISH_TIME", CtxVal.str "12:00"), ("CONTACT", CtxVal.str "@guest"),
    ("COMMENT", CtxVal.null)]

/-- The summary-shown state receiving a correction text. -/
def stateCorrection : BookingStateIn :=
  { context := ctxFullCouple, text := some "поменяй дату заезда",
    done := true }

/-- What the LLM extractor would return for that correction text. -/
def parsedCorrection : Ctx := [("START_DATE", CtxVal.str "25.03.2026")]

/-- Claim C2 evaluated at the failing input: with the summary already shown
(`done` set) and the correction text "поменяй дату заезда" arriving,
`_handle_summary_mode_input` replaces the text by the empty string, so
`ask_or_fill` skips slot extraction entirely — the context is unchanged
(even though the extractor would have updated the start date) and the step
ends with `done` still set, merely re-rendering the summary.  The claim
(and spec §4.2 step 1) instead requires the done flag to be cleared and
extraction re-run on the same text. -/
theorem summary_correction_dropped_c2 :
    handleSummaryModeInput "поменяй дату заезда" true = "" ∧
      (askOrFill [] (fun _ => "") (fun _ => "") (some parsedCorrection)
          ⟨2026, 3, 15, 12, 0, 0, 0⟩ stateCorrection).done = true ∧
      (askOrFill [] (fun _ => "") (fun _ => "") (some parsedCorrection)
          ⟨2026, 3, 15, 12, 0, 0, 0⟩ stateCorrection).context =
        ctxFullCouple ∧
      ctxGet (processUserText (some parsedCorrection)
          ⟨2026, 3, 15, 12, 0, 0, 0⟩ ctxFullCouple "поменяй дату заезда")
        "START_DATE" = some (.str "25.03.2026") :=
  ⟨rfl, rfl, rfl, rfl⟩

/-! ## Natural-language date extractor
(`infrastructure/llm/extractors/date_extractor.py`)

The extractor's regular expressions are embedded through a small
backtracking matcher.  Alternation is ordered (Python tries alternatives
left to right and commits to the first that lets the rest of the pattern
succeed), repetition is greedy, and a `?` over a capturing group leaves an
empty capture when it does not participate — as in Python's `re`. -/

/-- The regular-expression fragments the date extractor uses. -/
inductive RE where
  /-- matches the empty string -/
  | eps
  /-- a literal character -/
  | chr (c : Char)
  /-- a literal string -/
  | str (s : String)
  /-- a character class, e.g. `[-—]` -/
  | cls (cs : List Char)
  /-- `\s` -/
  | ws
  /-- `\s*` (greedy; the following token never matches whitespace) -/
  | wsMany
  /-- `\d{lo,hi}` (greedy) -/
  | digits (lo hi : Nat)
  /-- `c?` (greedy) -/
  | optChr (c : Char)
  /-- concatenation -/
  | cat (a b : RE)
  /-- ordered alternation -/
  | alt (a b : RE)
  /-- a capturing group -/
  | grp (a : RE)
  /-- `a?` (greedy); a skipped inner group captures the empty string -/
  | opt (a : RE)

/-- Number of capturing groups (alternation branches hold none in the
patterns used here). -/
def RE.numGroups : RE → Nat
  | .cat a b => a.numGroups + b.numGroups
  | .alt a b => Nat.max a.numGroups b.numGroups
  | .grp a => 1 + a.numGroups
  | .opt a => a.numGroups
  | _ => 0

/-- Consume a literal prefix. -/
def dropPrefix : List Char → List Char → Option (List Char)
  | [], s => some s
  | _ :: _, [] => none
  | c :: cs, x :: xs => if x = c then dropPrefix cs xs else none

/-- Suffixes after consuming `lo` to `hi` leading digits, greedy (longest
first). -/
def digitSplits (lo hi : Nat) (s : List Char) : List (List Char) :=
  let n := Nat.min hi ((s.takeWhile Char.isDigit).length)
  ((List.range (n + 1)).map (fun i => n - i)).filterMap
    (fun len => if lo ≤ len then some (s.drop len) else none)

/-- Suffixes after consuming leading whitespace, greedy (longest first). -/
def wsSplits (s : List Char) : List (List Char) :=
  let n := (s.takeWhile isSpaceChar).length
  ((List.range (n + 1)).map (fun i => n - i)).map (fun len => s.drop len)

/-- All ways a pattern can match a prefix of the input, as
`(remaining input, captured groups)` pairs in backtracking priority
order. -/
def reMatches : RE → List Char → List (List Char × List String)
  | .eps, s => [(s, [])]
  | .chr c, s =>
    match s with
    | x :: rest => if x = c then [(rest, [])] else []
    | [] => []
  | .str lit, s =>
    match dropPrefix lit.data s with
    | some rest => [(rest, [])]
    | none => []
  | .cls cs, s =>
    match s with
    | x :: rest => if cs.contains x then [(rest, [])] else []
    | [] => []
  | .ws, s =>
    match s with
    | x :: rest => if isSpaceChar x then [(rest, [])] else []
    | [] => []
  | .wsMany, s => (wsSplits s).map (fun r => (r, []))
  | .digits lo hi, s => (digitSplits lo hi s).map (fun r => (r, []))
  | .optChr c, s =>
    match s with
    | x :: rest => if x = c then [(rest, []), (x :: rest, [])] else [(s, [])]
    | [] => [(s, [])]
  | .cat a b, s =>
    (reMatches a s).flatMap
      (fun m1 => (reMatches b m1.1).map (fun m2 => (m2.1, m1.2 ++ m2.2)))
  | .alt a b, s => reMatches a s ++ reMatches b s
  | .grp a, s =>
    (reMatches a s).map
      (fun m => (m.1, (⟨s.take (s.length - m.1.length)⟩ : String) :: m.2))
  | .opt a, s =>
    reMatches a s ++ [(s, List.replicate a.numGroups "")]

/-- The backtracking engine's preferred match at this position. -/
def reFirst (r : RE) (s : List Char) : Option (List Char × List String) :=
  (reMatches r s).head?

/-- `re.search`: the leftmost match, returning `(match.group(), groups)`. -/
def reSearch (r : RE) : List Char → Option (String × List String)
  | [] =>
    match reFirst r [] with
    | some m => some (⟨[]⟩, m.2)
    | none => none
  | c :: t =>
    match reFirst r (c :: t) with
    | some m =>
      some (⟨(c :: t).take ((c :: t).length - m.1.length)⟩, m.2)
    | none => reSearch r t

/-- Concatenate a pattern list. -/
def catList (rs : List RE) : RE :=
  rs.foldr RE.cat .eps

/-- Ordered alternation of literal strings (`a|b|...`). -/
def altStrs : List String → RE
  | [] => .str ""
  | [n] => .str n
  | n :: rest => .alt (.str n) (altStrs rest)

/-- `datetime(year, month, day, hour, minute, second, microsecond)`:
`none` models the raised `ValueError` on an invalid date. -/
def mkDT (y : Int) (m d hh mi ss us : Nat) : Option DT :=
  if 1 ≤ y ∧ y ≤ 9999 ∧ 1 ≤ m ∧ m ≤ 12 ∧ 1 ≤ d ∧ d ≤ daysInMonth y m then
    some ⟨y, m, d, hh, mi, ss, us⟩
  else none

/-- Civil date from a serial day number (the inverse of
`daysFromCivil`). -/
def civilFromDays (z0 : Int) : Int × Nat × Nat :=
  let z := z0 + 719468
  let era : Int := (if z ≥ 0 then z else z - 146096) / 146097
  let doe : Int := z - era * 146097
  let yoe : Int := (doe - doe / 1460 + doe / 36524 - doe / 146096) / 365
  let y : Int := yoe + era * 400
  let doy : Int := doe - (365 * yoe + yoe / 4 - yoe / 100)
  let mp : Int := (5 * doy + 2) / 153
  let d : Int := doy - (153 * mp + 2) / 5 + 1
  let m : Int := if mp < 10 then mp + 3 else mp - 9
  (if m ≤ 2 then y + 1 else y, m.toNat, d.toNat)

/-- The datetime at a given number of microseconds since the epoch. -/
def dtFromMicros (x : Int) : DT :=
  let days := Int.fdiv x 86400000000
  let rem := (x - days * 86400000000).toNat
  let ymd := civilFromDays days
  ⟨ymd.1, ymd.2.1, ymd.2.2, rem / 3600000000, rem / 60000000 % 60,
    rem / 1000000 % 60, rem % 1000000⟩

/-- `dt - timedelta(seconds=n)`. -/
def dtSubSeconds (t : DT) (n : Nat) : DT :=
  dtFromMicros (t.toMicros - (n : Int) * 1000000)

/-- `dt.replace(year=…, month=…, day=…)` keeping the time of day; `none`
models the raised `ValueError`. -/
def dtReplaceYMD (t : DT) (y : Int) (m d : Nat) : Option DT :=
  mkDT y m d t.hour t.minute t.second t.micro

/-- `validate_date_range`: start not after end, and a whole-day span of at
most 365 days. -/
def validateDateRange (s e : DT) : Bool :=
  decide (s.toMicros ≤ e.toMicros) && decide (tdDays e s ≤ 365)

/-- `_get_target_year_for_month`: next year for a month already past. -/
def targetYearForMonth (now : DT) (month : Nat) : Int :=
  if month < now.month then now.year + 1 else now.year

/-- `self.russian_months`, in dict insertion order (the order of the
alternation in the range pattern). -/
def russianMonths : List (String × Nat) :=
  [("январь", 1), ("января", 1), ("янв", 1), ("февраль", 2),
    ("февраля", 2), ("фев", 2), ("март", 3), ("марта", 3), ("мар", 3),
    ("апрель", 4), ("апреля", 4), ("апр", 4), ("май", 5), ("мая", 5),
    ("июнь", 6), ("июня", 6), ("июн", 6), ("июль", 7), ("июля", 7),
    ("июл", 7), ("август", 8), ("августа", 8), ("авг", 8),
    ("сентябрь", 9), ("сентября", 9), ("сен", 9), ("сент", 9),
    ("октябрь", 10), ("октября", 10), ("окт", 10), ("ноябрь", 11),
    ("ноября", 11), ("ноя", 11), ("декабрь", 12), ("декабря", 12),
    ("дек", 12)]

/-- `self.english_months`, in dict insertion order. -/
def englishMonths : List (String × Nat) :=
  [("january", 1), ("jan", 1), ("february", 2), ("feb", 2), ("march", 3),
    ("mar", 3), ("april", 4), ("apr", 4), ("may", 5), ("june", 6),
    ("jun", 6), ("july", 7), ("jul", 7), ("august", 8), ("aug", 8),
    ("september", 9), ("sep", 9), ("sept", 9), ("october", 10),
    ("oct", 10), ("november", 11), ("nov", 11), ("december", 12),
    ("dec", 12)]

/-- The month dict local to `extract_specific_date` (full Russian forms,
nominative and genitive, plus full English names). -/
def specificMonths : List (String × Nat) :=
  [("январь", 1), ("января", 1), ("февраль", 2), ("февраля", 2),
    ("март", 3), ("марта", 3), ("апрель", 4), ("апреля", 4), ("май", 5),
    ("мая", 5), ("июнь", 6), ("июня", 6), ("июль", 7), ("июля", 7),
    ("август", 8), ("августа", 8), ("сентябрь", 9), ("сентября", 9),
    ("октябрь", 10), ("октября", 10), ("ноябрь", 11), ("ноября", 11),
    ("декабрь", 12), ("декабря", 12), ("january", 1), ("february", 2),
    ("march", 3), ("april", 4), ("may", 5), ("june", 6), ("july", 7),
    ("august", 8), ("september", 9), ("october", 10), ("november", 11),
    ("december", 12)]

/-- The month dict of `month_bounds_from_text` (full nominative Russian
plus full English), in insertion order — the loop takes the first name
found as a substring. -/
def boundsMonths : List (String × Nat) :=
  [("январь", 1), ("февраль", 2), ("март", 3), ("апрель", 4), ("май", 5),
    ("июнь", 6), ("июль", 7), ("август", 8), ("сентябрь", 9),
    ("октябрь", 10), ("ноябрь", 11), ("декабрь", 12), ("january", 1),
    ("february", 2), ("march", 3), ("april", 4), ("may", 5), ("june", 6),
    ("july", 7), ("august", 8), ("september", 9), ("october", 10),
    ("november", 11), ("december", 12)]

/-- `\s+`. -/
def wsPlus : RE := .cat .ws .wsMany

/-- Range pattern 1:
`(\d{4})-(\d{1,2})-(\d{1,2})\s+(?:to|-|до|по)\s+(\d{4})-(\d{1,2})-(\d{1,2})`. -/
def patIsoRange : RE :=
  catList [.grp (.digits 4 4), .chr '-', .grp (.digits 1 2), .chr '-',
    .grp (.digits 1 2), wsPlus, altStrs ["to", "-", "до", "по"], wsPlus,
    .grp (.digits 4 4), .chr '-', .grp (.digits 1 2), .chr '-',
    .grp (.digits 1 2)]

/-- Range pattern 2: `(\d{1,2})\s*[-—]\s*(\d{1,2})\s+(январь|января|…)`. -/
def patRuRange : RE :=
  catList [.grp (.digits 1 2), .wsMany, .cls ['-', '—'], .wsMany,
    .grp (.digits 1 2), wsPlus, .grp (altStrs (russianMonths.map (·.1)))]

/-- Range pattern 3: `(january|jan|…)\s+(\d{1,2})\s*[-—]\s*(\d{1,2})`. -/
def patEnRange : RE :=
  catList [.grp (altStrs (englishMonths.map (·.1))), wsPlus,
    .grp (.digits 1 2), .wsMany, .cls ['-', '—'], .wsMany,
    .grp (.digits 1 2)]

/-- Range pattern 4: `(\d{1,2})\.(\d{1,2})\s*[-—]\s*(\d{1,2})\.(\d{1,2})`. -/
def patNumRange : RE :=
  catList [.grp (.digits 1 2), .chr '.', .grp (.digits 1 2), .wsMany,
    .cls ['-', '—'], .wsMany, .grp (.digits 1 2), .chr '.',
    .grp (.digits 1 2)]

/-- Specific-date pattern 1: `(\d{4})-(\d{1,2})-(\d{1,2})`. -/
def patIsoDate : RE :=
  catList [.grp (.digits 4 4), .chr '-', .grp (.digits 1 2), .chr '-',
    .grp (.digits 1 2)]

/-- Specific-date pattern 2: `(\d{1,2})\s+(январь|января|…)` over the full
Russian month forms. -/
def patRuDate : RE :=
  catList [.grp (.digits 1 2), wsPlus,
    .grp (altStrs ((specificMonths.take 24).map (·.1)))]

/-- Specific-date pattern 3: `(january|february|…)\s+(\d{1,2})` over the
full English names. -/
def patEnDate : RE :=
  catList [.grp (altStrs ((specificMonths.drop 24).map (·.1))), wsPlus,
    .grp (.digits 1 2)]

/-- Specific-date pattern 4: `(\d{1,2})\.(0?\d{1,2})\.?(\d{2,4})?`. -/
def patNumDate : RE :=
  catList [.grp (.digits 1 2), .chr '.',
    .grp (.cat (.optChr '0') (.digits 1 2)), .optChr '.',
    .opt (.grp (.digits 2 4))]

/-- Eager `Option` choice (`a` if it succeeded, else `b`). -/
def orO {α : Type} : Option α → Option α → Option α
  | some a, _ => some a
  | none, b => b

/-- Process the six groups of the ISO range pattern. -/
def processIsoRangeGroups (g : List String) : Option (DT × DT) :=
  match g with
  | [y1, m1, d1, y2, m2, d2] =>
    match mkDT (strToNat y1 : Int) (strToNat m1) (strToNat d1) 0 0 0 0,
        mkDT (strToNat y2 : Int) (strToNat m2) (strToNat d2) 23 59 59 0 with
    | some s, some e => if validateDateRange s e then some (s, e) else none
    | _, _ => none
  | _ => none

/-- Process the three groups of the Russian range pattern ("15-20 марта"):
`start_day > end_day` and date/validation failures fall through (`none`). -/
def processRuRangeGroups (now : DT) (g : List String) : Option (DT × DT) :=
  match g with
  | [d1s, d2s, mname] =>
    match List.lookup mname russianMonths with
    | some month =>
      let sd := strToNat d1s
      let ed := strToNat d2s
      if sd > ed then none
      else
        let year := targetYearForMonth now month
        match mkDT year month sd 0 0 0 0, mkDT year month ed 23 59 59 0 with
        | some s, some e => if validateDateRange s e then some (s, e) else none
        | _, _ => none
    | none => none
  | _ => none

/-- Process the three groups of the English range pattern ("march 15-20"). -/
def processEnRangeGroups (now : DT) (g : List String) : Option (DT × DT) :=
  match g with
  | [mname, d1s, d2s] =>
    match List.lookup mname englishMonths with
    | some month =>
      let sd := strToNat d1s
      let ed := strToNat d2s
      if sd > ed then none
      else
        let year := targetYearForMonth now month
        match mkDT year month sd 0 0 0 0, mkDT year month ed 23 59 59 0 with
        | some s, some e => if validateDateRange s e then some (s, e) else none
        | _, _ => none
    | none => none
  | _ => none

/-- Process the four groups of the numeric range pattern ("15.03-20.03"):
each endpoint gets its target year, with an end month below the start
month rolling the end into the next year. -/
def processNumRangeGroups (now : DT) (g : List String) : Option (DT × DT) :=
  match g with
  | [d1s, m1s, d2s, m2s] =>
    let sd := strToNat d1s
    let sm := strToNat m1s
    let ed := strToNat d2s
    let em := strToNat m2s
    let sy := targetYearForMonth now sm
    let ey := if em < sm then sy + 1 else targetYearForMonth now em
    match mkDT sy sm sd 0 0 0 0, mkDT ey em ed 23 59 59 0 with
    | some s, some e => if validateDateRange s e then some (s, e) else none
    | _, _ => none
  | _ => none

/-- `DateExtractor.extract_date_range`: lower-case and strip, then try the
four range patterns in order; a processing failure moves on to the next
pattern. -/
def extractDateRange (now : DT) (text : String) : Option (DT × DT × String) :=
  let t := (strTrim (lowerStr text)).data
  let step := fun (p : RE) (proc : List String → Option (DT × DT)) =>
    match reSearch p t with
    | some m => (proc m.2).map (fun se => (se.1, se.2, m.1))
    | none => none
  orO (step patIsoRange processIsoRangeGroups)
    (orO (step patRuRange (processRuRangeGroups now))
      (orO (step patEnRange (processEnRangeGroups now))
        (step patNumRange (processNumRangeGroups now))))

/-- `a.date() < b.date()`. -/
def dateBefore (a b : DT) : Bool :=
  decide (daysFromCivil a.year a.month a.day <
    daysFromCivil b.year b.month b.day)

/-- The `if/elif` dispatch `extract_specific_date` applies to the first
match's groups, whichever pattern produced them: a three-digit-group match
is treated as ISO (so a full `DD.MM.YYYY` match, whose year group is also
all digits, lands here and dies on the `year >= 2000` check against its
two-digit "year"); two groups parse as "15 марта" or "march 20"; anything
else with at least two groups is numeric `DD.MM[.YY[YY]]`. -/
def processSpecificGroups (now : DT) (g : List String) : Option (DT × String) :=
  if g.length = 3 && isDigitStr (g.getD 0 "") && isDigitStr (g.getD 1 "") &&
      isDigitStr (g.getD 2 "") then
    let y := strToNat (g.getD 0 "")
    let m := strToNat (g.getD 1 "")
    let d := strToNat (g.getD 2 "")
    if 1 ≤ m && m ≤ 12 && 1 ≤ d && d ≤ 31 && 2000 ≤ y then
      (mkDT (y : Int) m d 0 0 0 0).map
        (fun dt => (dt, toString y ++ "-" ++ pad2 m ++ "-" ++ pad2 d))
    else none
  else if g.length = 2 && isDigitStr (g.getD 0 "") then
    match List.lookup (g.getD 1 "") specificMonths with
    | some m =>
      let d := strToNat (g.getD 0 "")
      match mkDT now.year m d 0 0 0 0 with
      | some dt0 =>
        (if dateBefore dt0 now then mkDT (now.year + 1) m d 0 0 0 0
         else some dt0).map
          (fun dt => (dt, toString d ++ " " ++ g.getD 1 ""))
      | none => none
    | none => none
  else if g.length = 2 && isDigitStr (g.getD 1 "") then
    match List.lookup (g.getD 0 "") specificMonths with
    | some m =>
      let d := strToNat (g.getD 1 "")
      match mkDT now.year m d 0 0 0 0 with
      | some dt0 =>
        (if dateBefore dt0 now then mkDT (now.year + 1) m d 0 0 0 0
         else some dt0).map
          (fun dt => (dt, g.getD 0 "" ++ " " ++ toString d))
      | none => none
    | none => none
  else if 2 ≤ g.length then
    let d := strToNat (g.getD 0 "")
    let m := strToNat (g.getD 1 "")
    let y0 : Int :=
      if g.length < 3 || g.getD 2 "" = "" then now.year
      else (strToNat (g.getD 2 "") : Int)
    let y := if y0 < 100 then y0 + 2000 else y0
    if 1 ≤ m && m ≤ 12 && 1 ≤ d && d ≤ 31 then
      match mkDT y m d 0 0 0 0 with
      | some dt0 =>
        (if dateBefore dt0 now && g.length < 3 then mkDT (y + 1) m d 0 0 0 0
         else some dt0).map (fun dt => (dt, pad2 d ++ "." ++ pad2 m))
      | none => none
    else none
  else none

/-- `DateExtractor.extract_specific_date`: the first match of each pattern
in order, run through the common group dispatch; a raised `ValueError` or
a fall-through without `return` moves to the next pattern. -/
def extractSpecificDate (now : DT) (text : String) : Option (DT × String) :=
  let t := (lowerStr text).data
  let step := fun (p : RE) =>
    match reSearch p t with
    | some m => processSpecificGroups now m.2
    | none => none
  orO (step patIsoDate)
    (orO (step patRuDate) (orO (step patEnDate) (step patNumDate)))

/-- The current-month bounds shared by the "current month" branch and the
default of `month_bounds_from_text`: the first of the month at midnight,
and the first of the next month at the *current time of day* minus one
second (`now.replace(...)` keeps the time). -/
def currentMonthBounds (now : DT) : Option (DT × DT × String) :=
  let ms : DT := ⟨now.year, now.month, 1, 0, 0, 0, 0⟩
  if now.month = 12 then
    (dtReplaceYMD now (now.year + 1) 1 1).map
      (fun e => (ms, dtSubSeconds e 1, "current month"))
  else
    (dtReplaceYMD now now.year (now.month + 1) 1).map
      (fun e => (ms, dtSubSeconds e 1, "current month"))

/-- `DateExtractor.month_bounds_from_text`.  `none` models an uncaught
`ValueError`: in the "next month" branch the code builds
`now.replace(month=now.month + 2, day=1)`, which for a November `now`
asks for month 13 and raises. -/
def monthBounds (now : DT) (text : String) : Option (DT × DT × String) :=
  let low := lowerStr text
  if ["текущий", "этот", "сейчас", "теперь", "current", "this",
      "now"].any (fun w => substr w low) then
    currentMonthBounds now
  else if ["следующий", "будущий", "next", "future"].any
      (fun w => substr w low) then
    if now.month = 12 then
      (dtReplaceYMD now (now.year + 1) 1 1).bind (fun s =>
        (dtReplaceYMD now (now.year + 1) 2 1).map
          (fun e => (s, dtSubSeconds e 1, "next month")))
    else
      (dtReplaceYMD now now.year (now.month + 1) 1).bind (fun s =>
        (dtReplaceYMD now now.year (now.month + 2) 1).map
          (fun e => (s, dtSubSeconds e 1, "next month")))
  else
    match boundsMonths.find? (fun nm => substr nm.1 low) with
    | some nm =>
      let year := if nm.2 < now.month then now.year + 1 else now.year
      (mkDT year nm.2 1 0 0 0 0).bind (fun s =>
        (if nm.2 = 12 then mkDT (year + 1) 1 1 0 0 0 0
         else mkDT year (nm.2 + 1) 1 0 0 0 0).map
          (fun e1 => (s, dtSubSeconds e1 1, nm.1)))
    | none => currentMonthBounds now

/-- `DateExtractor.extract_dates_from_text`: range, then single date
expanded to `[00:00:00, 23:59:59.999999]`, then month bounds.  `none` is
an uncaught exception escaping the month-bounds fallback. -/
def extractDatesFromText (now : DT) (text : String) :
    Option (DT × DT × String) :=
  let ranged :=
    match extractDateRange now text with
    | some r => if validateDateRange r.1 r.2.1 then some r else none
    | none => none
  match ranged with
  | some r => some r
  | none =>
    match extractSpecificDate now text with
    | some dm =>
      some (⟨dm.1.year, dm.1.month, dm.1.day, 0, 0, 0, 0⟩,
        ⟨dm.1.year, dm.1.month, dm.1.day, 23, 59, 59, 999999⟩, dm.2)
    | none => monthBounds now text

/-! ### Claim C8: the "20-25 марта" scenario -/

/-- Counterexample to claim C8: at `now = 2025-03-15`, the extractor does
return the 20th–25th of March 2025, but the range path builds the end
instant with second precision (`23:59:59.000000`, the `.999999` belongs
only to the single-date strategy), and the matched-text label is
`"20-25 март"`: the regex alternation lists `март` before `марта`, so the
match stops before the final letter.  Both differ from the claimed
`end = …23:59:59.999999` and label `"20-25 марта"`. -/
theorem date_range_claim_c8_false :
    extractDatesFromText ⟨2025, 3, 15, 12, 0, 0, 0⟩ "20-25 марта" =
        some (⟨2025, 3, 20, 0, 0, 0, 0⟩, ⟨2025, 3, 25, 23, 59, 59, 0⟩,
          "20-25 март") ∧
      ("20-25 март" : String) ≠ "20-25 марта" ∧
      (⟨2025, 3, 25, 23, 59, 59, 0⟩ : DT) ≠ ⟨2025, 3, 25, 23, 59, 59, 999999⟩ :=
  ⟨rfl, by decide, by decide⟩

/-- Claim C8 as amended: with `now` fixed at 2025-03-15, the input
`"20-25 марта"` yields start `2025-03-20T00:00:00`, end
`2025-03-25T23:59:59.000000` (microsecond 0), and matched-text label
`"20-25 март"`. -/
theorem date_range_amended_c8 :
    extractDatesFromText ⟨2025, 3, 15, 12, 0, 0, 0⟩ "20-25 марта" =
      some (⟨2025, 3, 20, 0, 0, 0, 0⟩, ⟨2025, 3, 25, 23, 59, 59, 0⟩,
        "20-25 март") :=
  rfl

/-! ### Claim C5: totality of `extract_dates_from_text` -/

/-- Claim C5 evaluated at the failing input: with `now` in November
(2025-11-15), the text "следующий месяц" reaches the month-bounds
fallback's "next month" branch, which constructs
`now.replace(month=now.month + 2, day=1)` — month 13 — and raises a
`ValueError` that nothing catches, so `extract_dates_from_text` fails
(modelled `none`) instead of always returning a range.  The sibling case
one month earlier (October) succeeds, showing the `month + 2` overflow is
the one gap. -/
theorem extract_dates_crash_c5 :
    extractDatesFromText ⟨2025, 11, 15, 12, 0, 0, 0⟩ "следующий месяц" =
        none ∧
      monthBounds ⟨2025, 11, 15, 12, 0, 0, 0⟩ "следующий месяц" = none ∧
      monthBounds ⟨2025, 10, 15, 12, 0, 0, 0⟩ "следующий месяц" =
        some (⟨2025, 11, 1, 12, 0, 0, 0⟩, ⟨2025, 12, 1, 11, 59, 59, 0⟩,
          "next month") :=
  ⟨rfl, rfl, rfl⟩

end SecretHouse
